import Mathlib

/-!
# PartDesign::Boolean (src/Mod/PartDesign/App/FeatureBoolean.cpp)

A shallow embedding of `Boolean::execute` and of the helpers it calls, followed by
theorems about its fold over the tool list, its error paths and its single write of
the stored `Shape` property.

The OpenCASCADE primitives (`BRepAlgoAPI_Fuse`, `BRepAlgoAPI_Cut`, `BRepAlgoAPI_Common`,
`BRepAlgoAPI_Section`), `TopoDS_Shape::IsNull` and the inherited `Feature::getSolid`
are not part of this file of the repository; they are taken as parameters, collected
in the structure `Kernel`.
-/

namespace PartDesign

/-! ## Data model -/

/-- The value of the `Type` enumeration property; `Boolean::TypeEnums` lists exactly
these four names (line 51). -/
inductive BoolType where
  | Fuse
  | Cut
  | Common
  | Section
  deriving DecidableEq, Repr

/-- A constructed `BRepAlgoAPI_*` builder, observed through `IsDone()` and `Shape()`. -/
structure MakeShape (S : Type) where
  IsDone : Bool
  Shape : S

/-- The geometry capabilities `Boolean::execute` relies on, over a shape type `S`
(`TopoDS_Shape`). `getSolid` is the method inherited from `PartDesign::Feature`. -/
structure Kernel (S : Type) where
  IsNull : S → Bool
  Fuse : S → S → MakeShape S
  Cut : S → S → MakeShape S
  Common : S → S → MakeShape S
  Section : S → S → MakeShape S
  getSolid : S → S

/-- An entry of `Group`: an `App::DocumentObject`, which either derives from
`Part::Feature` (and then carries a `Shape` value) or does not. -/
inductive DocumentObject (S : Type) where
  | partFeature (Shape : S)
  | other

/-- The state of a `PartDesign::Boolean` feature that `execute` reads and writes.
`BaseObject` is the shape of the object returned by `getBaseObject(true)`, `none`
when that call returns a null pointer; `inBody` tells whether
`Part::BodyBase::findBodyOf(this)` is non-null; `Shape` is the stored output. -/
structure Boolean (S : Type) where
  BaseObject : Option S
  Group : List (DocumentObject S)
  TypeValue : BoolType
  inBody : Bool
  Shape : S

/-- The value `execute` returns: `StdReturn`, or a new `DocumentObjectExecReturn`
carrying a message. -/
inductive DocumentObjectExecReturn where
  | StdReturn
  | error (Why : String)
  deriving DecidableEq, Repr

/-- One construction of a kernel boolean builder: the tool index at which it
happened, the primitive, and its two operands in argument order. -/
structure KernelCall (S : Type) where
  index : Nat
  op : BoolType
  result : S
  shape : S

/-- What a call of `execute` leaves behind: the returned value, the stored `Shape`
afterwards, the number of `Shape.setValue` calls, and the kernel builders
constructed, in order. -/
structure ExecOutcome (S : Type) where
  ret : DocumentObjectExecReturn
  Shape : S
  writes : Nat
  calls : List (KernelCall S)

/-! ## `Boolean::execute` -/

/-- The body of the `for (auto tool : tools)` loop (lines 99-144) at tool index `i`
with running value `result`: either an early return with a message, or the value
`boolOp` assigned to `result`; together with the kernel builders constructed. -/
def executeStep {S : Type} (K : Kernel S) (type : BoolType) (i : Nat) (result : S)
    (tool : DocumentObject S) : Except String S × List (KernelCall S) :=
  match tool with
  | .other =>
    (.error "Cannot do boolean with anything but Part::Feature and its derivatives", [])
  | .partFeature shape =>
    if K.IsNull result then (.error "Base shape is null", [])
    else if K.IsNull shape then (.error "Tool shape is null", [])
    else
      match type with
      | .Fuse =>
        let mkFuse := K.Fuse result shape
        if !mkFuse.IsDone then (.error "Fusion of tools failed", [⟨i, .Fuse, result, shape⟩])
        else
          let boolOp := K.getSolid mkFuse.Shape
          if K.IsNull boolOp then
            (.error "Resulting shape is not a solid", [⟨i, .Fuse, result, shape⟩])
          else (.ok boolOp, [⟨i, .Fuse, result, shape⟩])
      | .Cut =>
        let mkCut := K.Cut result shape
        if !mkCut.IsDone then (.error "Cut out failed", [⟨i, .Cut, result, shape⟩])
        else (.ok mkCut.Shape, [⟨i, .Cut, result, shape⟩])
      | .Common =>
        let mkCommon := K.Common result shape
        if !mkCommon.IsDone then
          (.error "Common operation failed", [⟨i, .Common, result, shape⟩])
        else (.ok mkCommon.Shape, [⟨i, .Common, result, shape⟩])
      | .Section =>
        let mkSection := K.Section result shape
        if !mkSection.IsDone then (.error "Section failed", [⟨i, .Section, result, shape⟩])
        else
          let boolOp := K.getSolid mkSection.Shape
          if K.IsNull boolOp then
            (.error "Resulting shape is not a solid", [⟨i, .Section, result, shape⟩])
          else (.ok boolOp, [⟨i, .Section, result, shape⟩])

/-- The `for (auto tool : tools)` loop (lines 97-145), from tool index `i` on, with
running value `result` and the kernel builders `calls` constructed so far. -/
def executeLoop {S : Type} (K : Kernel S) (type : BoolType) :
    Nat → List (DocumentObject S) → S → List (KernelCall S) →
      Except String S × List (KernelCall S)
  | _, [], result, calls => (.ok result, calls)
  | i, tool :: rest, result, calls =>
    match executeStep K type i result tool with
    | (.error why, cs) => (.error why, calls ++ cs)
    | (.ok boolOp, cs) => executeLoop K type (i + 1) rest boolOp (calls ++ cs)

/-- `Boolean::execute` (lines 68-149). -/
def execute {S : Type} (K : Kernel S) (self : Boolean S) : ExecOutcome S :=
  match self.BaseObject with
  | none =>
    ⟨.error "Cannot do boolean operation with invalid BaseFeature", self.Shape, 0, []⟩
  | some baseTopShape =>
    if self.Group.isEmpty then ⟨.StdReturn, self.Shape, 0, []⟩
    else if K.IsNull baseTopShape then
      ⟨.error "Cannot do boolean operation with invalid base shape", self.Shape, 0, []⟩
    else if !self.inBody then
      ⟨.error "Cannot do boolean on feature which is not in a body", self.Shape, 0, []⟩
    else
      match executeLoop K self.TypeValue 0 self.Group baseTopShape [] with
      | (.error why, calls) => ⟨.error why, self.Shape, 0, calls⟩
      | (.ok result, calls) => ⟨.StdReturn, K.getSolid result, 1, calls⟩

/-! ## The fold as the specification words it -/

/-- The shape a successful step hands to the next one, per operation kind:
`getSolid(fuse(acc, t))`, `cut(acc, t)`, `common(acc, t)`, `getSolid(section(acc, t))`. -/
def stepShape {S : Type} (K : Kernel S) : BoolType → S → S → S
  | .Fuse, acc, t => K.getSolid (K.Fuse acc t).Shape
  | .Cut, acc, t => (K.Cut acc t).Shape
  | .Common, acc, t => (K.Common acc t).Shape
  | .Section, acc, t => K.getSolid (K.Section acc t).Shape

/-- A step succeeds when both operands are non-null, the kernel reports completion
and, for Fuse and Section, the extracted solid is non-null. -/
def stepSucceeds {S : Type} (K : Kernel S) : BoolType → S → S → Bool
  | .Fuse, acc, t =>
    !K.IsNull acc && !K.IsNull t && (K.Fuse acc t).IsDone
      && !K.IsNull (K.getSolid (K.Fuse acc t).Shape)
  | .Cut, acc, t => !K.IsNull acc && !K.IsNull t && (K.Cut acc t).IsDone
  | .Common, acc, t => !K.IsNull acc && !K.IsNull t && (K.Common acc t).IsDone
  | .Section, acc, t =>
    !K.IsNull acc && !K.IsNull t && (K.Section acc t).IsDone
      && !K.IsNull (K.getSolid (K.Section acc t).Shape)

/-- Every step of the left fold over `tools`, seeded with `acc`, succeeds. -/
def allStepsSucceed {S : Type} (K : Kernel S) (op : BoolType) : S → List S → Bool
  | _, [] => true
  | acc, t :: ts => stepSucceeds K op acc t && allStepsSucceed K op (stepShape K op acc t) ts

/-- The fail-fast left fold of the loop body over a tool list: the running result
after the last tool, or the message of the first step that returns early. -/
def foldSteps {S : Type} (K : Kernel S) (op : BoolType) :
    S → List (DocumentObject S) → Except String S
  | acc, [] => .ok acc
  | acc, tool :: rest =>
    match (executeStep K op 0 acc tool).1 with
    | .error why => .error why
    | .ok next => foldSteps K op next rest

/-- The failure kinds the specification names (its section on error handling). -/
inductive ErrorKind where
  | InvalidBase
  | NotInContainer
  | NullShape
  | UnsupportedSource
  | OperationFailed
  deriving DecidableEq, Repr

/-- The failure kind the specification gives to each message `execute` can return:
a missing base object or a null base shape is `InvalidBase`, a missing body is
`NotInContainer`, a null running result or tool shape is `NullShape`, a tool that is
no `Part::Feature` is `UnsupportedSource`, kernel non-completion or an extraction
without a solid is `OperationFailed`. -/
def errorKind (why : String) : Option ErrorKind :=
  if why = "Cannot do boolean operation with invalid BaseFeature" then some .InvalidBase
  else if why = "Cannot do boolean operation with invalid base shape" then some .InvalidBase
  else if why = "Cannot do boolean on feature which is not in a body" then some .NotInContainer
  else if why = "Cannot do boolean with anything but Part::Feature and its derivatives" then
    some .UnsupportedSource
  else if why = "Base shape is null" then some .NullShape
  else if why = "Tool shape is null" then some .NullShape
  else if why = "Fusion of tools failed" then some .OperationFailed
  else if why = "Cut out failed" then some .OperationFailed
  else if why = "Common operation failed" then some .OperationFailed
  else if why = "Section failed" then some .OperationFailed
  else if why = "Resulting shape is not a solid" then some .OperationFailed
  else none

/-! ## A small concrete kernel

Shapes are natural numbers: `0` is the null shape, the other even numbers are solids
and the odd numbers are shapes holding no solid (wires, shells). -/

/-- A concrete kernel over `Nat`, used to evaluate `execute` on explicit inputs. -/
def natKernel : Kernel Nat where
  IsNull := fun n => n == 0
  Fuse := fun a b => ⟨true, a + b⟩
  Cut := fun a b => ⟨decide (b ≤ a), a - b⟩
  Common := fun a b => ⟨true, min a b⟩
  Section := fun a b => ⟨true, a + b + 1⟩
  getSolid := fun n => if n % 2 = 0 then n else 0

/-! ## Change notification and the renamed property

`Boolean::mustExecute`, `Boolean::onChanged` and `Boolean::handleChangedPropertyName`
call into code outside this file: `touch()`, the parent class `PartDesign::Feature`,
`Base::Type::fromName` and `Group.Restore`. These are taken as parameters acting on a
state type `σ` of the document object. -/

/-- The inherited operations `mustExecute` and `onChanged` rely on, over a state type
`σ` and a type `P` of properties: `prop->getName()`, `touch()`,
`PartDesign::Feature::onChanged(prop)`, `PartDesign::Feature::mustExecute()` and
`Group.isTouched()`. -/
structure FeatureBase (σ P : Type) where
  getName : P → String
  touch : σ → σ
  onChanged : P → σ → σ
  mustExecute : σ → Int
  GroupIsTouched : σ → Bool

/-- A call `Boolean::onChanged` makes: `touch()` or the parent's `onChanged(prop)`. -/
inductive ChangeCall (P : Type) where
  | touch
  | FeatureOnChanged (prop : P)

/-- `Boolean::mustExecute` (lines 61-66). -/
def mustExecute {σ P : Type} (B : FeatureBase σ P) (self : σ) : Int :=
  if B.GroupIsTouched self then 1
  else B.mustExecute self

/-- `Boolean::onChanged` (lines 151-157): the state afterwards and the calls made, in
order. -/
def onChanged {σ P : Type} (B : FeatureBase σ P) (prop : P) (self : σ) :
    σ × List (ChangeCall P) :=
  if B.getName prop = "Group" then
    (B.onChanged prop (B.touch self), [.touch, .FeatureOnChanged prop])
  else (B.onChanged prop self, [.FeatureOnChanged prop])

/-- What `handleChangedPropertyName` relies on, over a state type `σ` (the feature
together with the reader) and a type `T` of type ids: `Base::Type::fromName`,
`Group.getClassTypeId()` and `Group.Restore(reader)`. -/
structure PropertyRestore (σ T : Type) where
  fromName : String → T
  GroupClassTypeId : T
  GroupRestore : σ → σ

/-- `Boolean::handleChangedPropertyName` (lines 159-166): the state afterwards and the
number of `Group.Restore` calls. -/
def handleChangedPropertyName {σ T : Type} [DecidableEq T] (E : PropertyRestore σ T)
    (TypeName PropName : String) (self : σ) : σ × Nat :=
  let type := E.fromName TypeName
  if E.GroupClassTypeId = type ∧ PropName = "Bodies" then (E.GroupRestore self, 1)
  else (self, 0)

/-- A concrete parent class whose state is the list of things that happened to the
object: `touch()` and the parent's `onChanged` each leave an entry; the parent never
asks for execution; `Group` counts as touched once the object was touched. -/
def logBase : FeatureBase (List String) String where
  getName := fun prop => prop
  touch := fun s => s ++ ["touch"]
  onChanged := fun prop s => s ++ ["Feature::onChanged " ++ prop]
  mustExecute := fun _ => 0
  GroupIsTouched := fun s => decide ("touch" ∈ s)

/-- A concrete restore environment: a type id is its name, `Group` is an
`App::PropertyLinkList`, and `Group.Restore` leaves an entry in the state. -/
def logRestore : PropertyRestore (List String) String where
  fromName := fun name => name
  GroupClassTypeId := "App::PropertyLinkList"
  GroupRestore := fun s => s ++ ["Group.Restore"]

/-! ## Lemmas on the loop body and the loop -/

/-- The value a loop iteration produces does not depend on the tool index. -/
theorem executeStep_fst_index {S : Type} (K : Kernel S) (op : BoolType) (i j : Nat) (r : S)
    (tool : DocumentObject S) :
    (executeStep K op i r tool).1 = (executeStep K op j r tool).1 := by
  unfold executeStep
  cases tool with
  | other => rfl
  | partFeature shape =>
    cases op <;> simp only [] <;> repeat (split <;> try rfl)

/-- Every kernel builder a loop iteration constructs is tagged with the iteration's
index and kind and was given the running result and the tool shape, both non-null. -/
theorem executeStep_calls {S : Type} (K : Kernel S) (op : BoolType) (i : Nat) (r : S)
    (tool : DocumentObject S) (c : KernelCall S) (hc : c ∈ (executeStep K op i r tool).2) :
    c.index = i ∧ c.op = op ∧ c.result = r ∧ tool = .partFeature c.shape
      ∧ K.IsNull c.result = false ∧ K.IsNull c.shape = false := by
  unfold executeStep at hc
  cases tool with
  | other => simp at hc
  | partFeature shape =>
    by_cases h1 : K.IsNull r = true
    · simp [h1] at hc
    · by_cases h2 : K.IsNull shape = true
      · simp [h1, h2] at hc
      · have h1f : K.IsNull r = false := by simpa using h1
        have h2f : K.IsNull shape = false := by simpa using h2
        cases op <;> simp only [h1f, h2f] at hc <;>
          (repeat' split at hc) <;> simp at hc <;> subst hc <;> simp [h1f, h2f]

/-- A loop iteration constructs at most one kernel builder. -/
theorem executeStep_calls_length {S : Type} (K : Kernel S) (op : BoolType) (i : Nat) (r : S)
    (tool : DocumentObject S) : (executeStep K op i r tool).2.length ≤ 1 := by
  unfold executeStep
  cases tool with
  | other => simp
  | partFeature shape =>
    cases op <;> simp only [] <;> (repeat' split) <;> simp

/-- One unfolding of the loop at a non-empty tool list. -/
theorem executeLoop_cons {S : Type} (K : Kernel S) (op : BoolType) (i : Nat)
    (tool : DocumentObject S) (rest : List (DocumentObject S)) (r : S)
    (calls : List (KernelCall S)) :
    executeLoop K op i (tool :: rest) r calls =
      match executeStep K op i r tool with
      | (.error why, cs) => (.error why, calls ++ cs)
      | (.ok boolOp, cs) => executeLoop K op (i + 1) rest boolOp (calls ++ cs) := by
  rw [executeLoop]

/-- The value the loop ends with is the fail-fast fold of the loop body. -/
theorem executeLoop_fst {S : Type} (K : Kernel S) (op : BoolType)
    (tools : List (DocumentObject S)) :
    ∀ (i : Nat) (r : S) (calls : List (KernelCall S)),
      (executeLoop K op i tools r calls).1 = foldSteps K op r tools := by
  induction tools with
  | nil => intro i r calls; rfl
  | cons tool rest ih =>
    intro i r calls
    have hidx := executeStep_fst_index K op i 0 r tool
    unfold executeLoop foldSteps
    rw [← hidx]
    rcases hstep : executeStep K op i r tool with ⟨res, cs⟩
    cases res with
    | error why => rfl
    | ok next => exact ih (i + 1) next (calls ++ cs)

/-- Every kernel builder the loop constructs beyond those already recorded belongs to
a tool index of the range the loop covers, is of the configured kind, and was given
two non-null shapes. -/
theorem executeLoop_calls {S : Type} (K : Kernel S) (op : BoolType)
    (tools : List (DocumentObject S)) :
    ∀ (i : Nat) (r : S) (calls : List (KernelCall S)) (c : KernelCall S),
      c ∈ (executeLoop K op i tools r calls).2 →
        c ∈ calls ∨ (i ≤ c.index ∧ c.index < i + tools.length ∧ c.op = op
          ∧ K.IsNull c.result = false ∧ K.IsNull c.shape = false) := by
  induction tools with
  | nil => intro i r calls c hc; exact Or.inl hc
  | cons tool rest ih =>
    intro i r calls c hc
    unfold executeLoop at hc
    have hcalls := executeStep_calls K op i r tool c
    rcases hstep : executeStep K op i r tool with ⟨res, cs⟩
    rw [hstep] at hc hcalls
    have hhere : c ∈ cs → (i ≤ c.index ∧ c.index < i + (tool :: rest).length ∧ c.op = op
          ∧ K.IsNull c.result = false ∧ K.IsNull c.shape = false) := by
      intro hmem
      obtain ⟨h1, h2, _, _, h5, h6⟩ := hcalls hmem
      refine ⟨by omega, by simp only [List.length_cons]; omega, h2, h5, h6⟩
    cases res with
    | error why =>
      simp only [List.mem_append] at hc
      rcases hc with hc | hc
      · exact Or.inl hc
      · exact Or.inr (hhere hc)
    | ok next =>
      simp only [] at hc
      rcases ih (i + 1) next (calls ++ cs) c hc with h | ⟨h1, h2, h3, h4, h5⟩
      · rcases List.mem_append.mp h with h | h
        · exact Or.inl h
        · exact Or.inr (hhere h)
      · refine Or.inr ⟨by omega, by simp only [List.length_cons]; omega, h3, h4, h5⟩

/-- The loop only ever extends the list of recorded kernel builders. -/
theorem executeLoop_calls_prefix {S : Type} (K : Kernel S) (op : BoolType)
    (tools : List (DocumentObject S)) :
    ∀ (i : Nat) (r : S) (calls : List (KernelCall S)),
      ∃ more, (executeLoop K op i tools r calls).2 = calls ++ more
        ∧ more.length ≤ tools.length := by
  induction tools with
  | nil => intro i r calls; exact ⟨[], by simp [executeLoop]⟩
  | cons tool rest ih =>
    intro i r calls
    unfold executeLoop
    have hlen := executeStep_calls_length K op i r tool
    rcases hstep : executeStep K op i r tool with ⟨res, cs⟩
    rw [hstep] at hlen
    cases res with
    | error why => exact ⟨cs, rfl, by simp only [List.length_cons]; simp at hlen; omega⟩
    | ok next =>
      obtain ⟨more, hm, hl⟩ := ih (i + 1) next (calls ++ cs)
      refine ⟨cs ++ more, ?_, ?_⟩
      · simp only []; rw [hm, List.append_assoc]
      · simp only [List.length_append, List.length_cons]; simp at hlen; omega

/-- Running the loop over `pre ++ rest`, when every step over `pre` succeeds, is
running it over `rest` from the result and the records the steps over `pre` leave. -/
theorem executeLoop_append {S : Type} (K : Kernel S) (op : BoolType)
    (pre rest : List (DocumentObject S)) :
    ∀ (i : Nat) (r acc : S) (calls : List (KernelCall S)),
      foldSteps K op r pre = .ok acc →
        executeLoop K op i (pre ++ rest) r calls
          = executeLoop K op (i + pre.length) rest acc (executeLoop K op i pre r calls).2 := by
  induction pre with
  | nil =>
    intro i r acc calls h
    simp only [foldSteps, Except.ok.injEq] at h
    subst h
    simp [executeLoop]
  | cons tool pre ih =>
    intro i r acc calls h
    have hidx := executeStep_fst_index K op i 0 r tool
    unfold foldSteps at h
    rw [← hidx] at h
    simp only [List.cons_append, List.length_cons, executeLoop_cons]
    rcases hstep : executeStep K op i r tool with ⟨res, cs⟩
    rw [hstep] at h
    cases res with
    | error why => simp at h
    | ok next =>
      simp only [] at h ⊢
      rw [ih (i + 1) next acc (calls ++ cs) h]
      have hi : i + 1 + pre.length = i + (pre.length + 1) := by omega
      rw [hi]

/-- A step that succeeds in the sense of `stepSucceeds` makes the loop body produce
`stepShape`. -/
theorem executeStep_of_stepSucceeds {S : Type} (K : Kernel S) (op : BoolType) (i : Nat)
    (acc t : S) (h : stepSucceeds K op acc t = true) :
    (executeStep K op i acc (.partFeature t)).1 = .ok (stepShape K op acc t) := by
  cases op <;> simp [stepSucceeds] at h <;> simp [executeStep, stepShape, h]

/-- When every step succeeds, the fail-fast fold is the plain left fold of
`stepShape`. -/
theorem foldSteps_of_allStepsSucceed {S : Type} (K : Kernel S) (op : BoolType)
    (ts : List S) :
    ∀ acc : S, allStepsSucceed K op acc ts = true →
      foldSteps K op acc (ts.map DocumentObject.partFeature)
        = .ok (ts.foldl (stepShape K op) acc) := by
  induction ts with
  | nil => intro acc _; rfl
  | cons t ts ih =>
    intro acc h
    simp only [allStepsSucceed, Bool.and_eq_true] at h
    simp only [List.map_cons, List.foldl_cons, foldSteps]
    rw [executeStep_of_stepSucceeds K op 0 acc t h.1]
    exact ih _ h.2

/-- A failing step after a succeeding prefix ends the loop with that step's message;
the records are those of the prefix followed by those of the failing step. -/
theorem executeLoop_fail {S : Type} (K : Kernel S) (op : BoolType)
    (pre post : List (DocumentObject S)) (t : DocumentObject S) (i : Nat) (r acc : S)
    (calls : List (KernelCall S)) (why : String)
    (hpre : foldSteps K op r pre = .ok acc)
    (hstep : (executeStep K op (i + pre.length) acc t).1 = .error why) :
    executeLoop K op i (pre ++ t :: post) r calls
      = (.error why, (executeLoop K op i pre r calls).2
          ++ (executeStep K op (i + pre.length) acc t).2) := by
  rw [executeLoop_append K op pre (t :: post) i r acc calls hpre, executeLoop_cons]
  rcases hs : executeStep K op (i + pre.length) acc t with ⟨res, cs⟩
  rw [hs] at hstep
  simp only [] at hstep
  subst hstep
  rfl

/-- With a resolved non-null base shape, a non-empty tool list and an enclosing body,
`execute` is the loop followed by the single write of `getSolid(result)`. -/
theorem execute_eq_loop {S : Type} (K : Kernel S) (op : BoolType) (base old : S)
    (tools : List (DocumentObject S)) (hne : tools ≠ []) (hbase : K.IsNull base = false) :
    execute K ⟨some base, tools, op, true, old⟩ =
      match executeLoop K op 0 tools base [] with
      | (.error why, calls) => ⟨.error why, old, 0, calls⟩
      | (.ok result, calls) => ⟨.StdReturn, K.getSolid result, 1, calls⟩ := by
  cases tools with
  | nil => exact absurd rfl hne
  | cons t ts => simp [execute, hbase]

/-- When a step over `pre` fails, the tools after `pre` are never looked at. -/
theorem executeLoop_append_error {S : Type} (K : Kernel S) (op : BoolType)
    (pre rest : List (DocumentObject S)) (why : String) :
    ∀ (i : Nat) (r : S) (calls : List (KernelCall S)),
      foldSteps K op r pre = .error why →
        executeLoop K op i (pre ++ rest) r calls = executeLoop K op i pre r calls := by
  induction pre with
  | nil => intro i r calls h; simp [foldSteps] at h
  | cons tool pre ih =>
    intro i r calls h
    have hidx := executeStep_fst_index K op i 0 r tool
    unfold foldSteps at h
    rw [← hidx] at h
    simp only [List.cons_append, executeLoop_cons]
    rcases hstep : executeStep K op i r tool with ⟨res, cs⟩
    rw [hstep] at h
    cases res with
    | error e => rfl
    | ok next =>
      simp only [] at h ⊢
      exact ih (i + 1) next (calls ++ cs) h

/-- The loop body on a `Part::Feature` tool whose shape is null returns early, before
any kernel builder is constructed. -/
theorem executeStep_null_tool {S : Type} (K : Kernel S) (op : BoolType) (i : Nat)
    (r shape : S) (hnull : K.IsNull shape = true) :
    executeStep K op i r (.partFeature shape)
      = (.error (if K.IsNull r then "Base shape is null" else "Tool shape is null"), []) := by
  unfold executeStep
  by_cases h : K.IsNull r = true <;> simp [h, hnull]

/-- The three ways `execute` can end: an error that leaves the state alone, the
no-op `StdReturn` on an empty tool list, or `StdReturn` after the one write. -/
theorem execute_cases {S : Type} (K : Kernel S) (self : Boolean S) :
    (∃ why, (execute K self).ret = .error why ∧ (execute K self).Shape = self.Shape
        ∧ (execute K self).writes = 0)
      ∨ ((execute K self).ret = .StdReturn ∧ (execute K self).Shape = self.Shape
        ∧ (execute K self).writes = 0 ∧ (execute K self).calls = [] ∧ self.Group = [])
      ∨ ((execute K self).ret = .StdReturn ∧ (execute K self).writes = 1
        ∧ self.Group ≠ []
        ∧ ∃ result, foldSteps K self.TypeValue (self.BaseObject.getD self.Shape) self.Group
              = .ok result
            ∧ (execute K self).Shape = K.getSolid result) := by
  obtain ⟨b, g, ty, body, old⟩ := self
  cases b with
  | none =>
    exact Or.inl ⟨"Cannot do boolean operation with invalid BaseFeature", by simp [execute]⟩
  | some base =>
    cases g with
    | nil => exact Or.inr (Or.inl (by simp [execute]))
    | cons t ts =>
      by_cases hb : K.IsNull base = true
      · exact Or.inl ⟨"Cannot do boolean operation with invalid base shape",
          by simp [execute, hb]⟩
      · cases body with
        | false =>
          exact Or.inl ⟨"Cannot do boolean on feature which is not in a body",
            by simp [execute, hb]⟩
        | true =>
          have hbf : K.IsNull base = false := by simpa using hb
          have hfst := executeLoop_fst K ty (t :: ts) 0 base []
          rw [execute_eq_loop K ty base old (t :: ts) (by simp) hbf]
          rcases hl : executeLoop K ty 0 (t :: ts) base [] with ⟨res, cs⟩
          rw [hl] at hfst
          cases res with
          | error why => exact Or.inl ⟨why, rfl, rfl, rfl⟩
          | ok result =>
            refine Or.inr (Or.inr ⟨rfl, rfl, by simp, result, ?_, rfl⟩)
            simpa using hfst.symm

/-! ## The claims -/

/-- C1: for every operation kind, a resolved non-null base shape, an enclosing body
and a non-empty tool list all of whose steps succeed, `execute` returns `StdReturn`
and stores, in one write, `getSolid` of the left fold of the per-kind step over the
tools in list order, seeded with the base shape; for Cut with tools `[t1, t2]` that
is `getSolid(cut(cut(base, t1), t2))`. -/
theorem execute_stores_left_fold {S : Type} (K : Kernel S) (op : BoolType) (base old : S)
    (ts : List S) (hne : ts ≠ []) (hbase : K.IsNull base = false)
    (hsteps : allStepsSucceed K op base ts = true) :
    (execute K ⟨some base, ts.map .partFeature, op, true, old⟩).ret = .StdReturn
      ∧ (execute K ⟨some base, ts.map .partFeature, op, true, old⟩).Shape
          = K.getSolid (ts.foldl (stepShape K op) base)
      ∧ (execute K ⟨some base, ts.map .partFeature, op, true, old⟩).writes = 1
      ∧ (∀ t1 t2 : S, op = .Cut → ts = [t1, t2] →
          (execute K ⟨some base, ts.map .partFeature, op, true, old⟩).Shape
            = K.getSolid (K.Cut (K.Cut base t1).Shape t2).Shape) := by
  have hmap : ts.map DocumentObject.partFeature ≠ [] := by simpa using hne
  have hfold := foldSteps_of_allStepsSucceed K op ts base hsteps
  have hloop := executeLoop_fst K op (ts.map DocumentObject.partFeature) 0 base []
  rw [hfold] at hloop
  have hexec := execute_eq_loop K op base old _ hmap hbase
  rcases hl : executeLoop K op 0 (ts.map DocumentObject.partFeature) base [] with ⟨res, cs⟩
  rw [hl] at hloop hexec
  simp only [] at hloop
  subst hloop
  simp only [] at hexec
  rw [hexec]
  refine ⟨rfl, rfl, rfl, ?_⟩
  intro t1 t2 hop hts
  subst hop hts
  rfl

/-- C1, evaluated: cutting 2 and then 4 from the solid 10 succeeds and stores
`getSolid(cut(cut(10, 2), 4)) = 4` in one write. -/
theorem execute_stores_left_fold_witness :
    (execute natKernel ⟨some 10, [2, 4].map .partFeature, .Cut, true, 0⟩).ret = .StdReturn
      ∧ (execute natKernel ⟨some 10, [2, 4].map .partFeature, .Cut, true, 0⟩).Shape
          = natKernel.getSolid ([2, 4].foldl (stepShape natKernel .Cut) 10)
      ∧ (execute natKernel ⟨some 10, [2, 4].map .partFeature, .Cut, true, 0⟩).writes = 1
      ∧ (execute natKernel ⟨some 10, [2, 4].map .partFeature, .Cut, true, 0⟩).Shape
          = natKernel.getSolid (natKernel.Cut (natKernel.Cut 10 2).Shape 4).Shape
      ∧ natKernel.getSolid (natKernel.Cut (natKernel.Cut 10 2).Shape 4).Shape = 4 :=
  have h := execute_stores_left_fold natKernel .Cut 10 0 [2, 4] (by decide) rfl rfl
  ⟨h.1, h.2.1, h.2.2.1, h.2.2.2 2 4 rfl rfl, rfl⟩

/-- C2: when the steps over the tools before index `i` succeed and the step at index
`i` fails, `execute` returns that step's error, no kernel builder is constructed for
a tool after index `i` (the tools after `i` do not influence the outcome at all), and
the stored `Shape` is not written. -/
theorem execute_fails_fast {S : Type} (K : Kernel S) (op : BoolType) (base old acc : S)
    (pre post : List (DocumentObject S)) (t : DocumentObject S) (why : String)
    (hbase : K.IsNull base = false)
    (hpre : foldSteps K op base pre = .ok acc)
    (hstep : (executeStep K op pre.length acc t).1 = .error why) :
    (execute K ⟨some base, pre ++ t :: post, op, true, old⟩).ret = .error why
      ∧ (execute K ⟨some base, pre ++ t :: post, op, true, old⟩).Shape = old
      ∧ (execute K ⟨some base, pre ++ t :: post, op, true, old⟩).writes = 0
      ∧ (∀ c ∈ (execute K ⟨some base, pre ++ t :: post, op, true, old⟩).calls,
          c.index ≤ pre.length)
      ∧ (execute K ⟨some base, pre ++ t :: post, op, true, old⟩).calls
          = (execute K ⟨some base, pre ++ [t], op, true, old⟩).calls := by
  have hstep0 : (executeStep K op (0 + pre.length) acc t).1 = .error why := by
    rw [Nat.zero_add]; exact hstep
  have hfail := fun post => executeLoop_fail K op pre post t 0 base acc [] why hpre hstep0
  have hne : ∀ post : List (DocumentObject S), pre ++ t :: post ≠ [] := by
    intro post; simp
  rw [execute_eq_loop K op base old _ (hne post) hbase,
    execute_eq_loop K op base old _ (hne []) hbase, hfail post, hfail []]
  refine ⟨rfl, rfl, rfl, ?_, rfl⟩
  intro c hc
  simp only [List.mem_append] at hc
  rcases hc with hc | hc
  · rcases executeLoop_calls K op pre 0 base [] c hc with h | ⟨_, h, _⟩
    · simp at h
    · omega
  · have := (executeStep_calls K op (0 + pre.length) acc t c hc).1
    omega

/-- C2, evaluated: with base 10 and Cut over tools 2, 20, 2, the second cut does not
complete; the run returns its message and the third tool is never reached. -/
theorem execute_fails_fast_witness :
    (execute natKernel
        ⟨some 10, [.partFeature 2] ++ .partFeature 20 :: [.partFeature 2], .Cut, true, 6⟩).ret
        = .error "Cut out failed"
      ∧ (execute natKernel
        ⟨some 10, [.partFeature 2] ++ .partFeature 20 :: [.partFeature 2], .Cut, true, 6⟩).Shape
        = 6
      ∧ (execute natKernel
        ⟨some 10, [.partFeature 2] ++ .partFeature 20 :: [.partFeature 2], .Cut, true, 6⟩).writes
        = 0
      ∧ (∀ c ∈ (execute natKernel
        ⟨some 10, [.partFeature 2] ++ .partFeature 20 :: [.partFeature 2], .Cut, true, 6⟩).calls,
          c.index ≤ [DocumentObject.partFeature 2].length)
      ∧ (execute natKernel
        ⟨some 10, [.partFeature 2] ++ .partFeature 20 :: [.partFeature 2], .Cut, true, 6⟩).calls
        = (execute natKernel
            ⟨some 10, [.partFeature 2] ++ [.partFeature 20], .Cut, true, 6⟩).calls :=
  execute_fails_fast natKernel .Cut 10 6 8 [.partFeature 2] [.partFeature 2]
    (.partFeature 20) "Cut out failed" rfl rfl rfl

/-- C3 as stated fails: with a resolved base object whose shape is null and an empty
tool list, `execute` returns `StdReturn`, not the invalid-base-shape error. -/
theorem execute_null_base_empty_tools :
    (execute natKernel ⟨some 0, [], .Fuse, true, 6⟩).ret = .StdReturn
      ∧ (execute natKernel ⟨some 0, [], .Fuse, true, 6⟩).ret
          ≠ .error "Cannot do boolean operation with invalid base shape" := by
  constructor
  · rfl
  · intro h
    exact DocumentObjectExecReturn.noConfusion h

/-- C3, amended: when the base object resolves, its shape is null and the tool list
is non-empty, `execute` returns "Cannot do boolean operation with invalid base shape"
(kind `InvalidBase`) whatever the tools, the kind and the body are, constructs no
kernel builder and leaves the stored `Shape` as it was. -/
theorem execute_null_base_shape {S : Type} (K : Kernel S) (op : BoolType) (base old : S)
    (tool : DocumentObject S) (rest : List (DocumentObject S)) (inBody : Bool)
    (hnull : K.IsNull base = true) :
    execute K ⟨some base, tool :: rest, op, inBody, old⟩
        = ⟨.error "Cannot do boolean operation with invalid base shape", old, 0, []⟩
      ∧ errorKind "Cannot do boolean operation with invalid base shape"
          = some .InvalidBase := by
  constructor
  · simp [execute, hnull]
  · rfl

/-- C3 amended, evaluated on a null base shape with one tool outside any body. -/
theorem execute_null_base_shape_witness :
    execute natKernel ⟨some 0, [.partFeature 2], .Cut, false, 6⟩
        = ⟨.error "Cannot do boolean operation with invalid base shape", 6, 0, []⟩
      ∧ errorKind "Cannot do boolean operation with invalid base shape"
          = some .InvalidBase :=
  execute_null_base_shape natKernel .Cut 0 6 (.partFeature 2) [] false rfl

/-- C4 as stated fails: with an empty tool list and no resolvable base object,
`execute` returns an error, not `StdReturn`. -/
theorem execute_empty_tools_missing_base :
    (execute natKernel ⟨none, [], .Fuse, true, 6⟩).ret
        = .error "Cannot do boolean operation with invalid BaseFeature"
      ∧ (execute natKernel ⟨none, [], .Fuse, true, 6⟩).ret ≠ .StdReturn := by
  constructor
  · rfl
  · intro h
    exact DocumentObjectExecReturn.noConfusion h

/-- C4, amended: with an empty tool list `execute` constructs no kernel builder and
leaves the stored `Shape` exactly as it was; it returns `StdReturn` when the base
object resolves (whatever its shape and the body) and the missing-base error when it
does not. -/
theorem execute_empty_tools {S : Type} (K : Kernel S) (self : Boolean S)
    (hempty : self.Group = []) :
    (execute K self).Shape = self.Shape
      ∧ (execute K self).writes = 0
      ∧ (execute K self).calls = []
      ∧ (self.BaseObject.isSome = true → (execute K self).ret = .StdReturn)
      ∧ (self.BaseObject = none → (execute K self).ret
          = .error "Cannot do boolean operation with invalid BaseFeature") := by
  obtain ⟨b, g, ty, body, old⟩ := self
  simp only at hempty
  subst hempty
  cases b with
  | none => simp [execute]
  | some base => simp [execute]

/-- C4 amended, evaluated on a resolved base and an empty tool list. -/
theorem execute_empty_tools_witness :
    (execute natKernel ⟨some 10, [], .Common, false, 6⟩).Shape = 6
      ∧ (execute natKernel ⟨some 10, [], .Common, false, 6⟩).writes = 0
      ∧ (execute natKernel ⟨some 10, [], .Common, false, 6⟩).calls = []
      ∧ (execute natKernel ⟨some 10, [], .Common, false, 6⟩).ret = .StdReturn :=
  have h := execute_empty_tools natKernel ⟨some 10, [], .Common, false, 6⟩ rfl
  ⟨h.1, h.2.1, h.2.2.1, h.2.2.2.1 rfl⟩

/-- C5 as stated fails: with Cut, base 10 and tools 20, null, the tool at index 1 has
a null shape, yet the run fails with the error of the cut at index 0. -/
theorem execute_null_tool_after_failure :
    natKernel.IsNull 0 = true
      ∧ (execute natKernel ⟨some 10, [.partFeature 20, .partFeature 0], .Cut, true, 6⟩).ret
          = .error "Cut out failed"
      ∧ (execute natKernel ⟨some 10, [.partFeature 20, .partFeature 0], .Cut, true, 6⟩).ret
          ≠ .error "Tool shape is null" := by
  refine ⟨rfl, rfl, ?_⟩
  intro h
  have h2 : "Cut out failed" = "Tool shape is null" := DocumentObjectExecReturn.error.inj h
  exact absurd h2 (by decide)

/-- C5, amended: with a valid base and an enclosing body, when the tool at index `i`
has a null shape `execute` fails, does not write the stored `Shape`, and constructs
no kernel builder for any index from `i` on; the error is "Tool shape is null" (kind
`NullShape`) when every step before `i` succeeds and the running result reaching
index `i` is non-null. -/
theorem execute_null_tool {S : Type} (K : Kernel S) (op : BoolType) (base old shape : S)
    (pre post : List (DocumentObject S))
    (hbase : K.IsNull base = false) (hnull : K.IsNull shape = true) :
    (∃ why, (execute K ⟨some base, pre ++ .partFeature shape :: post, op, true, old⟩).ret
        = .error why)
      ∧ (execute K ⟨some base, pre ++ .partFeature shape :: post, op, true, old⟩).Shape = old
      ∧ (execute K ⟨some base, pre ++ .partFeature shape :: post, op, true, old⟩).writes = 0
      ∧ (∀ c ∈ (execute K ⟨some base, pre ++ .partFeature shape :: post, op, true, old⟩).calls,
          c.index < pre.length)
      ∧ (∀ acc : S, foldSteps K op base pre = .ok acc → K.IsNull acc = false →
          (execute K ⟨some base, pre ++ .partFeature shape :: post, op, true, old⟩).ret
            = .error "Tool shape is null")
      ∧ errorKind "Tool shape is null" = some .NullShape := by
  have hne : pre ++ DocumentObject.partFeature shape :: post ≠ [] := by simp
  have hidx : ∀ c ∈ (executeLoop K op 0 pre base []).2, c.index < pre.length := by
    intro c hc
    rcases executeLoop_calls K op pre 0 base [] c hc with h | ⟨_, h, _⟩
    · simp at h
    · omega
  rw [execute_eq_loop K op base old _ hne hbase]
  rcases hfold : foldSteps K op base pre with why | acc
  · rw [executeLoop_append_error K op pre _ why 0 base [] hfold]
    have hfst := executeLoop_fst K op pre 0 base []
    rw [hfold] at hfst
    rcases hl : executeLoop K op 0 pre base [] with ⟨res, cs⟩
    rw [hl] at hfst hidx
    simp only [] at hfst
    subst hfst
    refine ⟨⟨why, rfl⟩, rfl, rfl, hidx, ?_, rfl⟩
    intro acc h
    simp at h
  · have hs := executeStep_null_tool K op (0 + pre.length) acc shape hnull
    have hfail := executeLoop_fail K op pre post (.partFeature shape) 0 base acc []
      (if K.IsNull acc then "Base shape is null" else "Tool shape is null") hfold
      (by rw [hs])
    rw [hfail, hs]
    refine ⟨⟨_, rfl⟩, rfl, rfl, ?_, ?_, rfl⟩
    · intro c hc
      exact hidx c (by simpa using hc)
    · intro acc2 h hnn
      simp only [Except.ok.injEq] at h
      subst h
      simp [hnn]

/-- C5 amended, evaluated: Cut with base 10 and tools 2, null, 4 fails at index 1
with "Tool shape is null" after the one kernel call of index 0. -/
theorem execute_null_tool_witness :
    (execute natKernel
        ⟨some 10, [.partFeature 2] ++ .partFeature 0 :: [.partFeature 4], .Cut, true, 6⟩).ret
        = .error "Tool shape is null"
      ∧ (execute natKernel
        ⟨some 10, [.partFeature 2] ++ .partFeature 0 :: [.partFeature 4], .Cut, true, 6⟩).Shape
        = 6
      ∧ (execute natKernel
        ⟨some 10, [.partFeature 2] ++ .partFeature 0 :: [.partFeature 4], .Cut, true, 6⟩).writes
        = 0
      ∧ (∀ c ∈ (execute natKernel
        ⟨some 10, [.partFeature 2] ++ .partFeature 0 :: [.partFeature 4], .Cut, true, 6⟩).calls,
          c.index < [DocumentObject.partFeature 2].length)
      ∧ (execute natKernel
        ⟨some 10, [.partFeature 2] ++ .partFeature 0 :: [.partFeature 4], .Cut, true, 6⟩).calls
        = [⟨0, .Cut, 10, 2⟩] :=
  have h := execute_null_tool natKernel .Cut 10 6 0 [.partFeature 2] [.partFeature 4] rfl rfl
  ⟨h.2.2.2.2.1 8 rfl rfl, h.2.1, h.2.2.1, h.2.2.2.1, rfl⟩

/-- C6: every kernel builder `execute` constructs is given two non-null shapes, the
running result first and the tool shape second; and a loop iteration whose running
result or tool shape is null returns an error without constructing a builder. -/
theorem execute_kernel_operands_non_null {S : Type} (K : Kernel S) (self : Boolean S)
    (c : KernelCall S) (hc : c ∈ (execute K self).calls)
    (op : BoolType) (i : Nat) (r shape : S)
    (hnull : K.IsNull r = true ∨ K.IsNull shape = true) :
    (K.IsNull c.result = false ∧ K.IsNull c.shape = false ∧ c.op = self.TypeValue
        ∧ c.index < self.Group.length)
      ∧ (∃ why, executeStep K op i r (.partFeature shape) = (.error why, [])) := by
  constructor
  · obtain ⟨b, g, ty, body, old⟩ := self
    simp only [execute] at hc
    cases b with
    | none => simp at hc
    | some base =>
      simp only [] at hc
      split at hc
      · simp at hc
      · split at hc
        · simp at hc
        · split at hc
          · simp at hc
          · have hcalls := executeLoop_calls K ty g 0 base [] c
            rcases hl : executeLoop K ty 0 g base [] with ⟨res, cs⟩
            rw [hl] at hc hcalls
            have hmem : c ∈ cs := by
              cases res <;> simpa using hc
            rcases hcalls hmem with h | ⟨_, h2, h3, h4, h5⟩
            · simp at h
            · exact ⟨h4, h5, h3, by simpa using h2⟩
  · unfold executeStep
    rcases hnull with h | h
    · exact ⟨"Base shape is null", by simp [h]⟩
    · by_cases hr : K.IsNull r = true
      · exact ⟨"Base shape is null", by simp [hr]⟩
      · exact ⟨"Tool shape is null", by simp [hr, h]⟩

/-- C6, evaluated: the one builder of a Cut of 2 from 10 gets the operands 10 and 2;
a step with a null tool constructs none. -/
theorem execute_kernel_operands_non_null_witness :
    (natKernel.IsNull 10 = false ∧ natKernel.IsNull 2 = false ∧ BoolType.Cut = BoolType.Cut
        ∧ 0 < [DocumentObject.partFeature 2].length)
      ∧ (∃ why, executeStep natKernel .Cut 1 8 (.partFeature 0) = (.error why, [])) :=
  execute_kernel_operands_non_null natKernel ⟨some 10, [.partFeature 2], .Cut, true, 6⟩
    ⟨0, .Cut, 10, 2⟩ (List.Mem.head _) .Cut 1 8 0 (Or.inr rfl)

/-- C7: whenever `execute` does not return `StdReturn` the stored `Shape` is what it
was before the call; in every run `Shape.setValue` is called at most once, exactly
once when the run succeeds on a non-empty tool list and never otherwise, and a run
without a write leaves the stored `Shape` as it was. -/
theorem execute_writes_at_most_once {S : Type} (K : Kernel S) (self : Boolean S) :
    ((execute K self).ret ≠ .StdReturn →
        (execute K self).Shape = self.Shape ∧ (execute K self).writes = 0)
      ∧ (execute K self).writes ≤ 1
      ∧ ((execute K self).writes = 1 ↔
          ((execute K self).ret = .StdReturn ∧ self.Group ≠ []))
      ∧ ((execute K self).writes = 0 → (execute K self).Shape = self.Shape) := by
  rcases execute_cases K self with ⟨why, h1, h2, h3⟩ | ⟨h1, h2, h3, _, h5⟩ | ⟨h1, h2, h3, _⟩
  · refine ⟨fun _ => ⟨h2, h3⟩, by omega, ?_, fun _ => h2⟩
    rw [h1, h3]
    simp
  · refine ⟨fun h => absurd h1 h, by omega, ?_, fun _ => h2⟩
    rw [h3, h5]
    simp
  · refine ⟨fun h => absurd h1 h, by omega, ?_, fun h => by omega⟩
    rw [h1, h2]
    simp [h3]

/-- C7, evaluated: a Cut that does not complete leaves the stored shape 6 in place
and writes nothing; a Cut that completes writes once. -/
theorem execute_writes_at_most_once_witness :
    ((execute natKernel ⟨some 10, [.partFeature 20], .Cut, true, 6⟩).Shape = 6
        ∧ (execute natKernel ⟨some 10, [.partFeature 20], .Cut, true, 6⟩).writes = 0)
      ∧ ((execute natKernel ⟨some 10, [.partFeature 2], .Cut, true, 6⟩).ret = .StdReturn
        ∧ [DocumentObject.partFeature 2] ≠ []) :=
  ⟨(execute_writes_at_most_once natKernel ⟨some 10, [.partFeature 20], .Cut, true, 6⟩).1
      (fun h => DocumentObjectExecReturn.noConfusion h),
    (execute_writes_at_most_once natKernel
      ⟨some 10, [.partFeature 2], .Cut, true, 6⟩).2.2.1.mp rfl⟩

/-- C8: for Fuse and for Section with both operands non-null, the loop body fails
with the kernel's non-completion message when `IsDone()` is false; otherwise its
value is `getSolid` of the raw kernel output, and it fails with "Resulting shape is
not a solid" when that extraction is null. All three messages are of kind
`OperationFailed`. -/
theorem executeStep_fuse_section {S : Type} (K : Kernel S) (i : Nat) (r shape : S)
    (hr : K.IsNull r = false) (hs : K.IsNull shape = false) :
    (executeStep K .Fuse i r (.partFeature shape)).1
        = (if (K.Fuse r shape).IsDone = false then .error "Fusion of tools failed"
           else if K.IsNull (K.getSolid (K.Fuse r shape).Shape) = true then
             .error "Resulting shape is not a solid"
           else .ok (K.getSolid (K.Fuse r shape).Shape))
      ∧ (executeStep K .Section i r (.partFeature shape)).1
        = (if (K.Section r shape).IsDone = false then .error "Section failed"
           else if K.IsNull (K.getSolid (K.Section r shape).Shape) = true then
             .error "Resulting shape is not a solid"
           else .ok (K.getSolid (K.Section r shape).Shape))
      ∧ errorKind "Fusion of tools failed" = some .OperationFailed
      ∧ errorKind "Section failed" = some .OperationFailed
      ∧ errorKind "Resulting shape is not a solid" = some .OperationFailed := by
  refine ⟨?_, ?_, rfl, rfl, rfl⟩
  · unfold executeStep
    simp only [hr, hs]
    cases hd : (K.Fuse r shape).IsDone <;>
      cases hn : K.IsNull (K.getSolid (K.Fuse r shape).Shape) <;> simp [hn]
  · unfold executeStep
    simp only [hr, hs]
    cases hd : (K.Section r shape).IsDone <;>
      cases hn : K.IsNull (K.getSolid (K.Section r shape).Shape) <;> simp [hn]

/-- C8, evaluated on the operands 2 and 4. -/
theorem executeStep_fuse_section_witness :
    (executeStep natKernel .Fuse 0 2 (.partFeature 4)).1
        = (if (natKernel.Fuse 2 4).IsDone = false then .error "Fusion of tools failed"
           else if natKernel.IsNull (natKernel.getSolid (natKernel.Fuse 2 4).Shape) = true then
             .error "Resulting shape is not a solid"
           else .ok (natKernel.getSolid (natKernel.Fuse 2 4).Shape))
      ∧ (executeStep natKernel .Section 0 2 (.partFeature 4)).1
        = (if (natKernel.Section 2 4).IsDone = false then .error "Section failed"
           else if natKernel.IsNull (natKernel.getSolid (natKernel.Section 2 4).Shape) = true
           then .error "Resulting shape is not a solid"
           else .ok (natKernel.getSolid (natKernel.Section 2 4).Shape))
      ∧ errorKind "Fusion of tools failed" = some .OperationFailed
      ∧ errorKind "Section failed" = some .OperationFailed
      ∧ errorKind "Resulting shape is not a solid" = some .OperationFailed :=
  executeStep_fuse_section natKernel 0 2 4 rfl rfl

/-- C9 as stated fails: Section of the solid 10 with the single tool 2 completes with
the raw output 13, which holds no solid; `execute` then fails with "Resulting shape
is not a solid" and the stored shape stays 6 instead of becoming the section. -/
theorem execute_section_without_solid_fails :
    natKernel.IsNull 10 = false ∧ natKernel.IsNull 2 = false
      ∧ natKernel.Section 10 2 = ⟨true, 13⟩
      ∧ natKernel.IsNull (natKernel.getSolid (natKernel.Section 10 2).Shape) = true
      ∧ execute natKernel ⟨some 10, [.partFeature 2], .Section, true, 6⟩
          = ⟨.error "Resulting shape is not a solid", 6, 0, [⟨0, .Section, 10, 2⟩]⟩
      ∧ (execute natKernel ⟨some 10, [.partFeature 2], .Section, true, 6⟩).ret
          ≠ .StdReturn := by
  refine ⟨rfl, rfl, rfl, rfl, rfl, ?_⟩
  intro h
  exact DocumentObjectExecReturn.noConfusion h

/-- C9, amended: for Section with a valid base, an enclosing body and a single
non-null tool, when the kernel section completes and solid extraction on its output
is null, `execute` fails with "Resulting shape is not a solid" after the one kernel
call and leaves the stored `Shape` as it was. -/
theorem execute_section_without_solid {S : Type} (K : Kernel S) (base old shape : S)
    (hbase : K.IsNull base = false) (hshape : K.IsNull shape = false)
    (hdone : (K.Section base shape).IsDone = true)
    (hsolid : K.IsNull (K.getSolid (K.Section base shape).Shape) = true) :
    execute K ⟨some base, [.partFeature shape], .Section, true, old⟩
      = ⟨.error "Resulting shape is not a solid", old, 0, [⟨0, .Section, base, shape⟩]⟩ := by
  simp [execute, executeLoop, executeStep, hbase, hshape, hdone, hsolid]

/-- C9 amended, evaluated on the section of 10 with 2. -/
theorem execute_section_without_solid_witness :
    execute natKernel ⟨some 10, [.partFeature 2], .Section, true, 6⟩
      = ⟨.error "Resulting shape is not a solid", 6, 0, [⟨0, .Section, 10, 2⟩]⟩ :=
  execute_section_without_solid natKernel 10 6 2 rfl rfl rfl rfl

/-- C10: for Cut and for Common with both operands non-null and the kernel reporting
completion, the loop body succeeds with exactly the raw output of the primitive
applied to (running result, tool shape) in that order, after that one kernel call,
and the loop carries that raw output into the next iteration; with non-null
operands the body never returns "Resulting shape is not a solid" for these kinds,
whatever the kernel reports. -/
theorem executeStep_cut_common {S : Type} (K : Kernel S) (i : Nat) (r shape : S)
    (rest : List (DocumentObject S)) (calls : List (KernelCall S))
    (hr : K.IsNull r = false) (hs : K.IsNull shape = false) :
    ((K.Cut r shape).IsDone = true →
        executeStep K .Cut i r (.partFeature shape)
            = (.ok (K.Cut r shape).Shape, [⟨i, .Cut, r, shape⟩])
          ∧ executeLoop K .Cut i (.partFeature shape :: rest) r calls
            = executeLoop K .Cut (i + 1) rest (K.Cut r shape).Shape
                (calls ++ [⟨i, .Cut, r, shape⟩]))
      ∧ ((K.Common r shape).IsDone = true →
        executeStep K .Common i r (.partFeature shape)
            = (.ok (K.Common r shape).Shape, [⟨i, .Common, r, shape⟩])
          ∧ executeLoop K .Common i (.partFeature shape :: rest) r calls
            = executeLoop K .Common (i + 1) rest (K.Common r shape).Shape
                (calls ++ [⟨i, .Common, r, shape⟩]))
      ∧ (executeStep K .Cut i r (.partFeature shape)).1
          ≠ .error "Resulting shape is not a solid"
      ∧ (executeStep K .Common i r (.partFeature shape)).1
          ≠ .error "Resulting shape is not a solid" := by
  refine ⟨?_, ?_, ?_, ?_⟩
  · intro hd
    have hstep : executeStep K .Cut i r (.partFeature shape)
        = (.ok (K.Cut r shape).Shape, [⟨i, .Cut, r, shape⟩]) := by
      simp [executeStep, hr, hs, hd]
    exact ⟨hstep, by rw [executeLoop_cons, hstep]⟩
  · intro hd
    have hstep : executeStep K .Common i r (.partFeature shape)
        = (.ok (K.Common r shape).Shape, [⟨i, .Common, r, shape⟩]) := by
      simp [executeStep, hr, hs, hd]
    exact ⟨hstep, by rw [executeLoop_cons, hstep]⟩
  · cases hd : (K.Cut r shape).IsDone <;> simp [executeStep, hr, hs, hd]
  · cases hd : (K.Common r shape).IsDone <;> simp [executeStep, hr, hs, hd]

/-- C10, evaluated: cutting 10 from 10 completes with the null raw output 0, and
the common part of 10 and 3 is the non-solid 3; both steps succeed with the raw
output. -/
theorem executeStep_cut_common_witness :
    (executeStep natKernel .Cut 0 10 (.partFeature 10) = (.ok 0, [⟨0, .Cut, 10, 10⟩])
        ∧ executeLoop natKernel .Cut 0 [.partFeature 10] 10 []
          = executeLoop natKernel .Cut (0 + 1) [] (natKernel.Cut 10 10).Shape
              ([] ++ [⟨0, .Cut, 10, 10⟩]))
      ∧ (executeStep natKernel .Common 0 10 (.partFeature 3) = (.ok 3, [⟨0, .Common, 10, 3⟩])
        ∧ natKernel.getSolid 3 = 0) :=
  ⟨(executeStep_cut_common natKernel 0 10 10 [] [] rfl rfl).1 rfl,
    ((executeStep_cut_common natKernel 0 10 3 [] [] rfl rfl).2.1 rfl).1, rfl⟩

/-! ## Further lemmas on the loop body and the fold -/

/-- Where an early return of the loop body comes from: the type check, one of the two
null checks, the kernel's `IsDone()` or, for Fuse and Section, the null check of the
extracted solid. -/
theorem executeStep_error_cases {S : Type} (K : Kernel S) (op : BoolType) (i : Nat) (r : S)
    (tool : DocumentObject S) (why : String)
    (h : (executeStep K op i r tool).1 = .error why) :
    (tool = .other
        ∧ why = "Cannot do boolean with anything but Part::Feature and its derivatives")
      ∨ (∃ shape, tool = .partFeature shape
          ∧ ((K.IsNull r = true ∧ why = "Base shape is null")
            ∨ (K.IsNull r = false ∧ K.IsNull shape = true ∧ why = "Tool shape is null")
            ∨ (K.IsNull r = false ∧ K.IsNull shape = false
                ∧ ((op = .Fuse ∧ (why = "Fusion of tools failed"
                      ∨ why = "Resulting shape is not a solid"))
                  ∨ (op = .Cut ∧ why = "Cut out failed")
                  ∨ (op = .Common ∧ why = "Common operation failed")
                  ∨ (op = .Section ∧ (why = "Section failed"
                      ∨ why = "Resulting shape is not a solid")))))) := by
  cases tool with
  | other =>
    left
    simp only [executeStep, Except.error.injEq] at h
    exact ⟨rfl, h.symm⟩
  | partFeature shape =>
    right
    refine ⟨shape, rfl, ?_⟩
    unfold executeStep at h
    by_cases h1 : K.IsNull r = true
    · simp only [h1, if_true, Except.error.injEq] at h
      exact Or.inl ⟨h1, h.symm⟩
    · have h1f : K.IsNull r = false := by simpa using h1
      by_cases h2 : K.IsNull shape = true
      · simp [h1f, h2] at h
        exact Or.inr (Or.inl ⟨h1f, h2, h.symm⟩)
      · have h2f : K.IsNull shape = false := by simpa using h2
        refine Or.inr (Or.inr ⟨h1f, h2f, ?_⟩)
        cases op <;> simp only [h1f, h2f, Bool.false_eq_true, if_false] at h <;>
          (repeat' split at h) <;> simp at h <;> simp [h.symm]

/-- A loop iteration that does not return early had a `Part::Feature` tool and a step
that succeeds in the sense of `stepSucceeds`; its value is `stepShape`. -/
theorem executeStep_ok_cases {S : Type} (K : Kernel S) (op : BoolType) (i : Nat) (r next : S)
    (tool : DocumentObject S) (h : (executeStep K op i r tool).1 = .ok next) :
    ∃ shape, tool = .partFeature shape ∧ stepSucceeds K op r shape = true
      ∧ next = stepShape K op r shape := by
  cases tool with
  | other => simp [executeStep] at h
  | partFeature shape =>
    refine ⟨shape, rfl, ?_⟩
    unfold executeStep at h
    by_cases h1 : K.IsNull r = true
    · simp [h1] at h
    · have h1f : K.IsNull r = false := by simpa using h1
      by_cases h2 : K.IsNull shape = true
      · simp [h1f, h2] at h
      · have h2f : K.IsNull shape = false := by simpa using h2
        cases op <;> simp only [h1f, h2f, Bool.false_eq_true, if_false] at h <;>
          (repeat' split at h) <;> simp at h <;> simp_all [stepSucceeds, stepShape]

/-- The fold over `pre ++ rest`, when the steps over `pre` succeed, continues over
`rest` from the value they leave. -/
theorem foldSteps_append {S : Type} (K : Kernel S) (op : BoolType)
    (pre rest : List (DocumentObject S)) :
    ∀ (r acc : S), foldSteps K op r pre = .ok acc →
      foldSteps K op r (pre ++ rest) = foldSteps K op acc rest := by
  induction pre with
  | nil =>
    intro r acc h
    simp only [foldSteps, Except.ok.injEq] at h
    subst h
    rfl
  | cons t pre ih =>
    intro r acc h
    simp only [List.cons_append, foldSteps] at h ⊢
    rcases hs : (executeStep K op 0 r t).1 with why | next
    · rw [hs] at h
      simp at h
    · rw [hs] at h
      exact ih next acc h

/-- A failing fold fails at one step, after a prefix whose steps all succeed. -/
theorem foldSteps_error_step {S : Type} (K : Kernel S) (op : BoolType)
    (tools : List (DocumentObject S)) (why : String) :
    ∀ r : S, foldSteps K op r tools = .error why →
      ∃ pre t post acc, tools = pre ++ t :: post ∧ foldSteps K op r pre = .ok acc
        ∧ (executeStep K op 0 acc t).1 = .error why := by
  induction tools with
  | nil => intro r h; simp [foldSteps] at h
  | cons t ts ih =>
    intro r h
    simp only [foldSteps] at h
    rcases hs : (executeStep K op 0 r t).1 with e | next
    · rw [hs] at h
      simp only [Except.error.injEq] at h
      subst h
      exact ⟨[], t, ts, r, rfl, rfl, hs⟩
    · rw [hs] at h
      obtain ⟨pre, t2, post, acc, h1, h2, h3⟩ := ih next h
      refine ⟨t :: pre, t2, post, acc, by rw [h1]; rfl, ?_, h3⟩
      simp only [foldSteps, hs]
      exact h2

/-- The value a succeeding fold leaves is the seed, when there is no tool, or the
value of its last step. -/
theorem foldSteps_ok_last {S : Type} (K : Kernel S) (op : BoolType)
    (pre : List (DocumentObject S)) :
    ∀ (r acc : S), foldSteps K op r pre = .ok acc →
      (pre = [] ∧ acc = r)
        ∨ ∃ pre2 t acc2, pre = pre2 ++ [t] ∧ foldSteps K op r pre2 = .ok acc2
            ∧ (executeStep K op 0 acc2 t).1 = .ok acc := by
  induction pre with
  | nil =>
    intro r acc h
    simp only [foldSteps, Except.ok.injEq] at h
    exact Or.inl ⟨rfl, h.symm⟩
  | cons t0 pre0 ih =>
    intro r acc h
    right
    simp only [foldSteps] at h
    rcases hs : (executeStep K op 0 r t0).1 with e | next
    · rw [hs] at h
      simp at h
    · rw [hs] at h
      rcases ih next acc h with ⟨hnil, hacc⟩ | ⟨pre2, t, acc2, h1, h2, h3⟩
      · subst hnil hacc
        exact ⟨[], t0, r, rfl, rfl, hs⟩
      · refine ⟨t0 :: pre2, t, acc2, by rw [h1]; rfl, ?_, h3⟩
        simp only [foldSteps, hs]
        exact h2

/-- With a resolved non-null base shape, a non-empty tool list and an enclosing body,
what `execute` returns and stores is read off the fail-fast fold. -/
theorem execute_of_foldSteps {S : Type} (K : Kernel S) (op : BoolType) (base old : S)
    (tools : List (DocumentObject S)) (hne : tools ≠ []) (hbase : K.IsNull base = false) :
    (∀ why, foldSteps K op base tools = .error why →
        (execute K ⟨some base, tools, op, true, old⟩).ret = .error why
          ∧ (execute K ⟨some base, tools, op, true, old⟩).Shape = old
          ∧ (execute K ⟨some base, tools, op, true, old⟩).writes = 0)
      ∧ (∀ result, foldSteps K op base tools = .ok result →
        (execute K ⟨some base, tools, op, true, old⟩).ret = .StdReturn
          ∧ (execute K ⟨some base, tools, op, true, old⟩).Shape = K.getSolid result
          ∧ (execute K ⟨some base, tools, op, true, old⟩).writes = 1) := by
  have hfst := executeLoop_fst K op tools 0 base []
  rw [execute_eq_loop K op base old tools hne hbase]
  rcases hl : executeLoop K op 0 tools base [] with ⟨res, cs⟩
  rw [hl] at hfst
  simp only [] at hfst
  rw [← hfst]
  constructor
  · intro why h
    subst h
    exact ⟨rfl, rfl, rfl⟩
  · intro result h
    subst h
    exact ⟨rfl, rfl, rfl⟩

/-- An error `execute` returns from inside the loop is the early return of one loop
iteration, reached after a prefix of tools whose steps all succeed. -/
theorem execute_error_in_fold {S : Type} (K : Kernel S) (op : BoolType) (base old : S)
    (tools : List (DocumentObject S)) (why : String) (hne : tools ≠ [])
    (hbase : K.IsNull base = false)
    (h : (execute K ⟨some base, tools, op, true, old⟩).ret = .error why) :
    ∃ pre t post acc, tools = pre ++ t :: post ∧ foldSteps K op base pre = .ok acc
      ∧ (executeStep K op 0 acc t).1 = .error why := by
  have hfold := execute_of_foldSteps K op base old tools hne hbase
  rcases hf : foldSteps K op base tools with e | result
  · have he := (hfold.1 e hf).1
    rw [he] at h
    simp only [DocumentObjectExecReturn.error.injEq] at h
    subst h
    exact foldSteps_error_step K op tools e base hf
  · have hr := (hfold.2 result hf).1
    rw [hr] at h
    exact DocumentObjectExecReturn.noConfusion h

/-! ## The claims, continued -/

/-- C11 as stated fails: a run failing at tool index 0 and a run failing at tool
index 1, both under Cut, and a run failing under Fuse return the very same failure
value, the message "Tool shape is null". -/
theorem execute_failure_without_index :
    execute natKernel ⟨some 10, [.partFeature 0], .Cut, true, 6⟩
        = ⟨.error "Tool shape is null", 6, 0, []⟩
      ∧ foldSteps natKernel .Cut 10 [.partFeature 2] = .ok 8
      ∧ execute natKernel ⟨some 10, [.partFeature 2, .partFeature 0], .Cut, true, 6⟩
        = ⟨.error "Tool shape is null", 6, 0, [⟨0, .Cut, 10, 2⟩]⟩
      ∧ execute natKernel ⟨some 10, [.partFeature 0], .Fuse, true, 6⟩
        = ⟨.error "Tool shape is null", 6, 0, []⟩
      ∧ (execute natKernel ⟨some 10, [.partFeature 0], .Cut, true, 6⟩).ret
        = (execute natKernel ⟨some 10, [.partFeature 2, .partFeature 0], .Cut, true, 6⟩).ret
      ∧ (execute natKernel ⟨some 10, [.partFeature 0], .Cut, true, 6⟩).ret
        = (execute natKernel ⟨some 10, [.partFeature 0], .Fuse, true, 6⟩).ret :=
  ⟨rfl, rfl, rfl, rfl, rfl, rfl⟩

/-- C11, amended: a failure `execute` returns from inside the fold is one of eight
fixed messages and carries nothing else; the message of a loop iteration does not
depend on the tool index; a kernel non-completion message identifies the operation
kind, and "Resulting shape is not a solid" arises only under Fuse or Section; the
messages for a tool that is no `Part::Feature`, for a null running result and for a
null tool shape are the same under every kind and at every index. -/
theorem execute_failure_context {S : Type} (K : Kernel S) (op : BoolType) (base old : S)
    (tools : List (DocumentObject S)) (why : String) (i j : Nat) (r : S)
    (tool : DocumentObject S) (hne : tools ≠ []) (hbase : K.IsNull base = false)
    (h : (execute K ⟨some base, tools, op, true, old⟩).ret = .error why) :
    why ∈ ["Cannot do boolean with anything but Part::Feature and its derivatives",
        "Base shape is null", "Tool shape is null", "Fusion of tools failed",
        "Cut out failed", "Common operation failed", "Section failed",
        "Resulting shape is not a solid"]
      ∧ (why = "Fusion of tools failed" → op = .Fuse)
      ∧ (why = "Cut out failed" → op = .Cut)
      ∧ (why = "Common operation failed" → op = .Common)
      ∧ (why = "Section failed" → op = .Section)
      ∧ (why = "Resulting shape is not a solid" → op = .Fuse ∨ op = .Section)
      ∧ (executeStep K op i r tool).1 = (executeStep K op j r tool).1
      ∧ (∀ (kind : BoolType) (n : Nat) (result : S),
          (executeStep K kind n result .other).1
            = .error "Cannot do boolean with anything but Part::Feature and its derivatives")
      ∧ (∀ (kind : BoolType) (n : Nat) (result shape : S), K.IsNull result = true →
          (executeStep K kind n result (.partFeature shape)).1 = .error "Base shape is null")
      ∧ (∀ (kind : BoolType) (n : Nat) (result shape : S), K.IsNull result = false →
          K.IsNull shape = true →
          (executeStep K kind n result (.partFeature shape)).1
            = .error "Tool shape is null") := by
  obtain ⟨pre, t, post, acc, _, _, hstep⟩ :=
    execute_error_in_fold K op base old tools why hne hbase h
  have hkinds : why ∈
        ["Cannot do boolean with anything but Part::Feature and its derivatives",
        "Base shape is null", "Tool shape is null", "Fusion of tools failed",
        "Cut out failed", "Common operation failed", "Section failed",
        "Resulting shape is not a solid"]
      ∧ (why = "Fusion of tools failed" → op = .Fuse)
      ∧ (why = "Cut out failed" → op = .Cut)
      ∧ (why = "Common operation failed" → op = .Common)
      ∧ (why = "Section failed" → op = .Section)
      ∧ (why = "Resulting shape is not a solid" → op = .Fuse ∨ op = .Section) := by
    refine ⟨?_, ?_, ?_, ?_, ?_, ?_⟩ <;>
      rcases executeStep_error_cases K op 0 acc t why hstep with
        ⟨_, hw⟩ | ⟨shape, _, ⟨_, hw⟩ | ⟨_, _, hw⟩ | ⟨_, _, ⟨hop, hw | hw⟩ | ⟨hop, hw⟩
          | ⟨hop, hw⟩ | ⟨hop, hw | hw⟩⟩⟩ <;>
      subst hw <;> first | simp [hop] | simp
  obtain ⟨k1, k2, k3, k4, k5, k6⟩ := hkinds
  refine ⟨k1, k2, k3, k4, k5, k6, executeStep_fst_index K op i j r tool, ?_, ?_, ?_⟩
  · intro kind n result
    rfl
  · intro kind n result shape hr
    simp [executeStep, hr]
  · intro kind n result shape hr hs
    simp [executeStep, hr, hs]

/-- C11 amended, evaluated: Cut of 20 from 10 does not complete; the message names
the Cut and nothing else. An object that is no `Part::Feature`, a null running result
and a null tool shape get their one message under Common at index 3 and under
Section at index 7 alike. -/
theorem execute_failure_context_witness :
    "Cut out failed" ∈
        ["Cannot do boolean with anything but Part::Feature and its derivatives",
        "Base shape is null", "Tool shape is null", "Fusion of tools failed",
        "Cut out failed", "Common operation failed", "Section failed",
        "Resulting shape is not a solid"]
      ∧ BoolType.Cut = BoolType.Cut
      ∧ (executeStep natKernel .Cut 0 10 (.partFeature 20)).1
        = (executeStep natKernel .Cut 1 10 (.partFeature 20)).1
      ∧ (executeStep natKernel .Common 3 10 .other).1
        = .error "Cannot do boolean with anything but Part::Feature and its derivatives"
      ∧ (executeStep natKernel .Section 7 10 .other).1
        = .error "Cannot do boolean with anything but Part::Feature and its derivatives"
      ∧ (executeStep natKernel .Common 3 0 (.partFeature 2)).1 = .error "Base shape is null"
      ∧ (executeStep natKernel .Section 7 0 (.partFeature 2)).1 = .error "Base shape is null"
      ∧ (executeStep natKernel .Common 3 10 (.partFeature 0)).1 = .error "Tool shape is null"
      ∧ (executeStep natKernel .Section 7 10 (.partFeature 0)).1
        = .error "Tool shape is null" :=
  have h := execute_failure_context natKernel .Cut 10 6 [.partFeature 20] "Cut out failed"
    0 1 10 (.partFeature 20) (by simp) rfl rfl
  ⟨h.1, h.2.2.1 rfl, h.2.2.2.2.2.2.1,
    h.2.2.2.2.2.2.2.1 .Common 3 10, h.2.2.2.2.2.2.2.1 .Section 7 10,
    h.2.2.2.2.2.2.2.2.1 .Common 3 0 2 rfl, h.2.2.2.2.2.2.2.2.1 .Section 7 0 2 rfl,
    h.2.2.2.2.2.2.2.2.2 .Common 3 10 0 rfl rfl, h.2.2.2.2.2.2.2.2.2 .Section 7 10 0 rfl rfl⟩

/-- C12: `execute` returns "Cannot do boolean on feature which is not in a body" (kind
`NotInContainer`) if and only if the base object resolves, the tool list is non-empty,
the base shape is non-null and there is no enclosing body; in that case no kernel
builder is constructed and the stored `Shape` is unchanged. -/
theorem execute_not_in_body_iff {S : Type} (K : Kernel S) (self : Boolean S) :
    ((execute K self).ret = .error "Cannot do boolean on feature which is not in a body"
        ↔ ((∃ base, self.BaseObject = some base ∧ K.IsNull base = false)
            ∧ self.Group ≠ [] ∧ self.inBody = false))
      ∧ ((execute K self).ret = .error "Cannot do boolean on feature which is not in a body"
          → (execute K self).calls = [] ∧ (execute K self).Shape = self.Shape
            ∧ (execute K self).writes = 0)
      ∧ errorKind "Cannot do boolean on feature which is not in a body"
          = some .NotInContainer := by
  obtain ⟨b, g, ty, body, old⟩ := self
  have hloop : ∀ base, K.IsNull base = false → g ≠ [] →
      (execute K ⟨some base, g, ty, true, old⟩).ret
        ≠ .error "Cannot do boolean on feature which is not in a body" := by
    intro base hb hg h
    obtain ⟨pre, t, post, acc, _, _, hstep⟩ :=
      execute_error_in_fold K ty base old g _ hg hb h
    rcases executeStep_error_cases K ty 0 acc t _ hstep with
      ⟨_, hw⟩ | ⟨shape, _, ⟨_, hw⟩ | ⟨_, _, hw⟩ | ⟨_, _, ⟨_, hw | hw⟩ | ⟨_, hw⟩
        | ⟨_, hw⟩ | ⟨_, hw | hw⟩⟩⟩ <;>
      exact absurd hw (by decide)
  refine ⟨?_, ?_, rfl⟩
  · cases b with
    | none => simp [execute]
    | some base =>
      cases g with
      | nil => simp [execute]
      | cons t ts =>
        by_cases hb : K.IsNull base = true
        · simp [execute, hb]
        · have hbf : K.IsNull base = false := by simpa using hb
          cases body with
          | false => simp [execute, hbf]
          | true =>
            have := hloop base hbf (by simp)
            simp only [this, false_iff]
            simp
  · intro h
    cases b with
    | none => simp [execute] at h
    | some base =>
      cases g with
      | nil => simp [execute] at h
      | cons t ts =>
        by_cases hb : K.IsNull base = true
        · simp [execute, hb] at h
        · have hbf : K.IsNull base = false := by simpa using hb
          cases body with
          | false => simp [execute, hbf]
          | true => exact absurd h (hloop base hbf (by simp))

/-- C12, evaluated: a Cut on a valid base outside any body returns the error without
touching the kernel or the stored shape 6. -/
theorem execute_not_in_body_iff_witness :
    (execute natKernel ⟨some 10, [.partFeature 2], .Cut, false, 6⟩).ret
        = .error "Cannot do boolean on feature which is not in a body"
      ∧ (execute natKernel ⟨some 10, [.partFeature 2], .Cut, false, 6⟩).calls = []
      ∧ (execute natKernel ⟨some 10, [.partFeature 2], .Cut, false, 6⟩).Shape = 6
      ∧ (execute natKernel ⟨some 10, [.partFeature 2], .Cut, false, 6⟩).writes = 0 :=
  have h := execute_not_in_body_iff natKernel ⟨some 10, [.partFeature 2], .Cut, false, 6⟩
  have hret := h.1.mpr ⟨⟨10, rfl, rfl⟩, by simp, rfl⟩
  ⟨hret, h.2.1 hret⟩

/-- C13: `onChanged` calls `touch()` if and only if the changed property is named
"Group", and in every case ends by calling the parent's `onChanged` on the same
property (after the `touch()`, when there is one); `mustExecute` returns 1 when
`Group` is touched and the parent's `mustExecute` value otherwise. -/
theorem onChanged_touch_iff_group {σ P : Type} (B : FeatureBase σ P) (prop : P) (self : σ) :
    (ChangeCall.touch ∈ (onChanged B prop self).2 ↔ B.getName prop = "Group")
      ∧ (onChanged B prop self).2.getLast? = some (.FeatureOnChanged prop)
      ∧ (B.getName prop = "Group" →
          onChanged B prop self
            = (B.onChanged prop (B.touch self), [.touch, .FeatureOnChanged prop]))
      ∧ (B.getName prop ≠ "Group" →
          onChanged B prop self = (B.onChanged prop self, [.FeatureOnChanged prop]))
      ∧ (B.GroupIsTouched self = true → mustExecute B self = 1)
      ∧ (B.GroupIsTouched self = false → mustExecute B self = B.mustExecute self) := by
  refine ⟨?_, ?_, ?_, ?_, ?_, ?_⟩
  · by_cases h : B.getName prop = "Group" <;> simp [onChanged, h]
  · by_cases h : B.getName prop = "Group" <;> simp [onChanged, h]
  · intro h
    simp [onChanged, h]
  · intro h
    simp [onChanged, h]
  · intro h
    simp [mustExecute, h]
  · intro h
    simp [mustExecute, h]

/-- C13, evaluated on the logging parent: a change of "Group" touches and then
delegates, a change of "Type" only delegates; a touched object must execute. -/
theorem onChanged_touch_iff_group_witness :
    onChanged logBase "Group" []
        = (["touch", "Feature::onChanged Group"], [.touch, .FeatureOnChanged "Group"])
      ∧ onChanged logBase "Type" []
        = (["Feature::onChanged Type"], [.FeatureOnChanged "Type"])
      ∧ mustExecute logBase ["touch"] = 1
      ∧ mustExecute logBase [] = 0 :=
  ⟨(onChanged_touch_iff_group logBase "Group" []).2.2.1 rfl,
    (onChanged_touch_iff_group logBase "Type" []).2.2.2.1 (by decide),
    (onChanged_touch_iff_group logBase "Group" ["touch"]).2.2.2.2.1 rfl,
    (onChanged_touch_iff_group logBase "Group" []).2.2.2.2.2 rfl⟩

/-- C14: `handleChangedPropertyName` calls `Group.Restore` (once) if and only if the
declared type name resolves to the type of `Group` and the property name is exactly
"Bodies"; for every other pairing it leaves the state as it is. -/
theorem handleChangedPropertyName_restores_iff {σ T : Type} [DecidableEq T]
    (E : PropertyRestore σ T) (TypeName PropName : String) (self : σ) :
    ((handleChangedPropertyName E TypeName PropName self).2 = 1
        ↔ (E.GroupClassTypeId = E.fromName TypeName ∧ PropName = "Bodies"))
      ∧ ((E.GroupClassTypeId = E.fromName TypeName ∧ PropName = "Bodies") →
          handleChangedPropertyName E TypeName PropName self = (E.GroupRestore self, 1))
      ∧ (¬ (E.GroupClassTypeId = E.fromName TypeName ∧ PropName = "Bodies") →
          handleChangedPropertyName E TypeName PropName self = (self, 0)) := by
  by_cases h : E.GroupClassTypeId = E.fromName TypeName ∧ PropName = "Bodies"
  · simp [handleChangedPropertyName, h]
  · simp only [handleChangedPropertyName, h, if_false]
    simp

/-- C14, evaluated: the old "Bodies" link list is restored into `Group`; the same
name with another type, or another name with the same type, changes nothing. -/
theorem handleChangedPropertyName_restores_iff_witness :
    handleChangedPropertyName logRestore "App::PropertyLinkList" "Bodies" []
        = (["Group.Restore"], 1)
      ∧ handleChangedPropertyName logRestore "App::PropertyLink" "Bodies" [] = ([], 0)
      ∧ handleChangedPropertyName logRestore "App::PropertyLinkList" "Group" [] = ([], 0) :=
  ⟨(handleChangedPropertyName_restores_iff logRestore "App::PropertyLinkList" "Bodies"
      []).2.1 ⟨rfl, rfl⟩,
    (handleChangedPropertyName_restores_iff logRestore "App::PropertyLink" "Bodies"
      []).2.2 (by decide),
    (handleChangedPropertyName_restores_iff logRestore "App::PropertyLinkList" "Group"
      []).2.2 (by decide)⟩

/-- On a non-empty tool list the number of writes follows the returned value: one
write on `StdReturn`, none on an error, which also leaves the stored `Shape` alone. -/
theorem execute_writes_of_ret {S : Type} (K : Kernel S) (self : Boolean S)
    (hne : self.Group ≠ []) :
    ((execute K self).ret = .StdReturn → (execute K self).writes = 1
        ∧ ∃ result, (execute K self).Shape = K.getSolid result)
      ∧ ((execute K self).ret ≠ .StdReturn → (execute K self).writes = 0
        ∧ (execute K self).Shape = self.Shape) := by
  rcases execute_cases K self with ⟨why, h1, h2, h3⟩ | ⟨_, _, _, _, h5⟩
    | ⟨h1, h2, _, result, _, h4⟩
  · refine ⟨fun h => ?_, fun _ => ⟨h3, h2⟩⟩
    rw [h1] at h
    exact DocumentObjectExecReturn.noConfusion h
  · exact absurd h5 hne
  · exact ⟨fun _ => ⟨h2, result, h4⟩, fun h => absurd h1 h⟩

/-- What `execute` returns, records and writes does not depend on the stored `Shape`
it starts from; that shape only shows in the outcome when nothing is written. -/
theorem execute_stored_shape {S : Type} (K : Kernel S) (b : Option S)
    (g : List (DocumentObject S)) (ty : BoolType) (body : Bool) (old1 old2 : S) :
    execute K ⟨b, g, ty, body, old1⟩
      = ⟨(execute K ⟨b, g, ty, body, old2⟩).ret,
          if (execute K ⟨b, g, ty, body, old2⟩).writes = 0 then old1
          else (execute K ⟨b, g, ty, body, old2⟩).Shape,
          (execute K ⟨b, g, ty, body, old2⟩).writes,
          (execute K ⟨b, g, ty, body, old2⟩).calls⟩ := by
  cases b with
  | none => simp [execute]
  | some base =>
    cases g with
    | nil => simp [execute]
    | cons t ts =>
      by_cases hb : K.IsNull base = true
      · simp [execute, hb]
      · have hbf : K.IsNull base = false := by simpa using hb
        cases body with
        | false => simp [execute, hbf]
        | true =>
          rw [execute_eq_loop K ty base old1 (t :: ts) (by simp) hbf,
            execute_eq_loop K ty base old2 (t :: ts) (by simp) hbf]
          rcases executeLoop K ty 0 (t :: ts) base [] with ⟨res, cs⟩
          cases res <;> simp

/-- C15: for a non-empty tool list and any operation kind, two runs of `execute` with
the same kernel, base object, tools, kind and body return the same value, construct
the same kernel builders and write equally often, whatever the stored `Shape` each
run starts from; when they succeed they store the same shape, and when they fail each
keeps the shape it started from. Running again on the state a run leaves reproduces
its outcome. -/
theorem execute_deterministic {S : Type} (K : Kernel S) (b : Option S)
    (tool : DocumentObject S) (rest : List (DocumentObject S)) (op : BoolType) (body : Bool)
    (old1 old2 : S) :
    (execute K ⟨b, tool :: rest, op, body, old1⟩).ret
        = (execute K ⟨b, tool :: rest, op, body, old2⟩).ret
      ∧ (execute K ⟨b, tool :: rest, op, body, old1⟩).calls
        = (execute K ⟨b, tool :: rest, op, body, old2⟩).calls
      ∧ (execute K ⟨b, tool :: rest, op, body, old1⟩).writes
        = (execute K ⟨b, tool :: rest, op, body, old2⟩).writes
      ∧ ((execute K ⟨b, tool :: rest, op, body, old1⟩).ret = .StdReturn →
          (execute K ⟨b, tool :: rest, op, body, old1⟩).Shape
            = (execute K ⟨b, tool :: rest, op, body, old2⟩).Shape)
      ∧ ((execute K ⟨b, tool :: rest, op, body, old1⟩).ret ≠ .StdReturn →
          (execute K ⟨b, tool :: rest, op, body, old1⟩).Shape = old1
            ∧ (execute K ⟨b, tool :: rest, op, body, old2⟩).Shape = old2)
      ∧ execute K ⟨b, tool :: rest, op, body,
            (execute K ⟨b, tool :: rest, op, body, old1⟩).Shape⟩
          = execute K ⟨b, tool :: rest, op, body, old1⟩ := by
  have h12 := execute_stored_shape K b (tool :: rest) op body old1 old2
  have hw1 := execute_writes_of_ret K ⟨b, tool :: rest, op, body, old1⟩ (by simp)
  have hw2 := execute_writes_of_ret K ⟨b, tool :: rest, op, body, old2⟩ (by simp)
  have hret : (execute K ⟨b, tool :: rest, op, body, old1⟩).ret
      = (execute K ⟨b, tool :: rest, op, body, old2⟩).ret := by rw [h12]
  have hwr : (execute K ⟨b, tool :: rest, op, body, old1⟩).writes
      = (execute K ⟨b, tool :: rest, op, body, old2⟩).writes := by rw [h12]
  refine ⟨hret, by rw [h12], hwr, ?_, ?_, ?_⟩
  · intro hs
    have hone : (execute K ⟨b, tool :: rest, op, body, old2⟩).writes = 1 :=
      (hw2.1 (hret ▸ hs)).1
    rw [h12]
    simp [hone]
  · intro hf
    exact ⟨(hw1.2 hf).2, (hw2.2 (hret ▸ hf)).2⟩
  · have hself := execute_stored_shape K b (tool :: rest) op body
      (execute K ⟨b, tool :: rest, op, body, old1⟩).Shape old1
    rw [hself]
    split <;> rfl

/-- C15, evaluated: two Cuts of 2 and 4 from 10, started from the stored shapes 6 and
12, both succeed and store 4. -/
theorem execute_deterministic_witness :
    (execute natKernel ⟨some 10, [.partFeature 2, .partFeature 4], .Cut, true, 6⟩).Shape
        = (execute natKernel ⟨some 10, [.partFeature 2, .partFeature 4], .Cut, true, 12⟩).Shape
      ∧ (execute natKernel ⟨some 10, [.partFeature 2, .partFeature 4], .Cut, true, 6⟩).Shape
        = 4 :=
  ⟨(execute_deterministic natKernel (some 10) (.partFeature 2) [.partFeature 4] .Cut true
      6 12).2.2.2.1 rfl, rfl⟩

/-! ## Lemmas on the order of the checks -/

/-- A loop iteration that does not return early constructed exactly one kernel
builder, on the running result and the tool shape. -/
theorem executeStep_ok_calls {S : Type} (K : Kernel S) (op : BoolType) (i : Nat) (r next : S)
    (tool : DocumentObject S) (h : (executeStep K op i r tool).1 = .ok next) :
    ∃ shape, tool = .partFeature shape
      ∧ (executeStep K op i r tool).2 = [⟨i, op, r, shape⟩] := by
  cases tool with
  | other => simp [executeStep] at h
  | partFeature shape =>
    refine ⟨shape, rfl, ?_⟩
    unfold executeStep at h ⊢
    by_cases h1 : K.IsNull r = true
    · simp [h1] at h
    · have h1f : K.IsNull r = false := by simpa using h1
      by_cases h2 : K.IsNull shape = true
      · simp [h1f, h2] at h
      · have h2f : K.IsNull shape = false := by simpa using h2
        cases op <;> simp only [h1f, h2f, Bool.false_eq_true, if_false] at h ⊢ <;>
          (repeat' split) <;> simp_all

/-- A loop that runs to its end constructed one kernel builder per tool, at the tool
indices in increasing order. -/
theorem executeLoop_ok_indices {S : Type} (K : Kernel S) (op : BoolType)
    (tools : List (DocumentObject S)) :
    ∀ (i : Nat) (r acc : S) (calls : List (KernelCall S)),
      (executeLoop K op i tools r calls).1 = .ok acc →
        (executeLoop K op i tools r calls).2.map KernelCall.index
          = calls.map KernelCall.index ++ List.range' i tools.length := by
  induction tools with
  | nil => intro i r acc calls _; simp [executeLoop]
  | cons tool rest ih =>
    intro i r acc calls h
    rw [executeLoop_cons] at h ⊢
    have hcalls := executeStep_ok_calls K op i r
    rcases hstep : executeStep K op i r tool with ⟨res, cs⟩
    rw [hstep] at h
    cases res with
    | error why => simp at h
    | ok next =>
      simp only [] at h ⊢
      obtain ⟨shape, _, hcs⟩ := hcalls next tool (by rw [hstep])
      rw [hstep] at hcs
      simp only [] at hcs
      rw [ih (i + 1) next acc (calls ++ cs) h, hcs]
      simp [List.range'_succ]

/-- When a step over `pre` fails, the fold over `pre ++ rest` fails the same way. -/
theorem foldSteps_append_error {S : Type} (K : Kernel S) (op : BoolType)
    (pre rest : List (DocumentObject S)) (why : String) (r : S)
    (h : foldSteps K op r pre = .error why) :
    foldSteps K op r (pre ++ rest) = .error why := by
  rw [← executeLoop_fst K op (pre ++ rest) 0 r [],
    executeLoop_append_error K op pre rest why 0 r [] h, executeLoop_fst, h]

/-- A fold over `Part::Feature` tools that runs to its end had only succeeding
steps. -/
theorem allStepsSucceed_of_foldSteps {S : Type} (K : Kernel S) (op : BoolType)
    (ts : List S) :
    ∀ (r acc : S), foldSteps K op r (ts.map DocumentObject.partFeature) = .ok acc →
      allStepsSucceed K op r ts = true := by
  induction ts with
  | nil => intro r acc _; rfl
  | cons t ts ih =>
    intro r acc h
    simp only [List.map_cons, foldSteps] at h
    rcases hs : (executeStep K op 0 r (.partFeature t)).1 with e | next
    · rw [hs] at h
      simp at h
    · rw [hs] at h
      obtain ⟨shape, hshape, hok, hnext⟩ := executeStep_ok_cases K op 0 r next _ hs
      simp only [DocumentObject.partFeature.injEq] at hshape
      subst hshape
      subst hnext
      simp only [allStepsSucceed, hok, Bool.true_and]
      exact ih _ acc h

/-- A fold over `Part::Feature` tools never fails with the unsupported-type message. -/
theorem foldSteps_partFeature_error {S : Type} (K : Kernel S) (op : BoolType)
    (ts : List S) (r : S) (why : String)
    (h : foldSteps K op r (ts.map DocumentObject.partFeature) = .error why) :
    why ≠ "Cannot do boolean with anything but Part::Feature and its derivatives" := by
  obtain ⟨pre, t, post, acc, hsplit, _, hstep⟩ := foldSteps_error_step K op _ why r h
  have hmem : t ∈ ts.map DocumentObject.partFeature := by
    rw [hsplit]
    simp
  obtain ⟨x, _, hx⟩ := List.mem_map.mp hmem
  rcases executeStep_error_cases K op 0 acc t why hstep with
    ⟨ht, _⟩ | ⟨shape, _, ⟨_, hw⟩ | ⟨_, _, hw⟩ | ⟨_, _, ⟨_, hw | hw⟩ | ⟨_, hw⟩
      | ⟨_, hw⟩ | ⟨_, hw | hw⟩⟩⟩
  · rw [ht] at hx
    exact DocumentObject.noConfusion hx
  all_goals (subst hw; decide)

/-- C16: the checks of `execute` fire in a fixed order. Before the loop: a missing base
object (also on an empty tool list), then the empty tool list (`StdReturn`, also on a
null base shape), then a null base shape, then a missing body. In a loop iteration: a
tool that is no `Part::Feature`, then a null running result, then a null tool shape,
then kernel non-completion, then (Fuse, Section) an extraction without a solid. Over
the tools, the first failing iteration in list order is the one reported; and a tool
of unsupported type at index `i`, behind `Part::Feature` tools only, is reported
exactly when the steps for tools `0..i-1` all succeeded, after one kernel call for
each of them in order. -/
theorem execute_check_order {S : Type} (K : Kernel S) (op : BoolType) (base old r shape : S)
    (tools rest pre post : List (DocumentObject S)) (tool : DocumentObject S) (body : Bool)
    (i : Nat) (ts : List S) :
    (execute K ⟨none, tools, op, body, old⟩).ret
        = .error "Cannot do boolean operation with invalid BaseFeature"
      ∧ (execute K ⟨some base, [], op, body, old⟩).ret = .StdReturn
      ∧ (K.IsNull base = true →
          (execute K ⟨some base, tool :: rest, op, body, old⟩).ret
            = .error "Cannot do boolean operation with invalid base shape")
      ∧ (K.IsNull base = false →
          (execute K ⟨some base, tool :: rest, op, false, old⟩).ret
            = .error "Cannot do boolean on feature which is not in a body")
      ∧ (executeStep K op i r .other).1
          = .error "Cannot do boolean with anything but Part::Feature and its derivatives"
      ∧ (K.IsNull r = true →
          (executeStep K op i r (.partFeature shape)).1 = .error "Base shape is null")
      ∧ (K.IsNull r = false → K.IsNull shape = true →
          (executeStep K op i r (.partFeature shape)).1 = .error "Tool shape is null")
      ∧ (K.IsNull r = false → K.IsNull shape = false →
          ((K.Fuse r shape).IsDone = false →
              (executeStep K .Fuse i r (.partFeature shape)).1
                = .error "Fusion of tools failed")
            ∧ ((K.Cut r shape).IsDone = false →
              (executeStep K .Cut i r (.partFeature shape)).1 = .error "Cut out failed")
            ∧ ((K.Common r shape).IsDone = false →
              (executeStep K .Common i r (.partFeature shape)).1
                = .error "Common operation failed")
            ∧ ((K.Section r shape).IsDone = false →
              (executeStep K .Section i r (.partFeature shape)).1 = .error "Section failed")
            ∧ ((K.Fuse r shape).IsDone = true →
              K.IsNull (K.getSolid (K.Fuse r shape).Shape) = true →
              (executeStep K .Fuse i r (.partFeature shape)).1
                = .error "Resulting shape is not a solid")
            ∧ ((K.Section r shape).IsDone = true →
              K.IsNull (K.getSolid (K.Section r shape).Shape) = true →
              (executeStep K .Section i r (.partFeature shape)).1
                = .error "Resulting shape is not a solid"))
      ∧ (K.IsNull base = false → ∀ acc why, foldSteps K op base pre = .ok acc →
          (executeStep K op 0 acc tool).1 = .error why →
          (execute K ⟨some base, pre ++ tool :: post, op, true, old⟩).ret = .error why)
      ∧ (K.IsNull base = false →
          ((execute K ⟨some base, ts.map .partFeature ++ .other :: post, op, true, old⟩).ret
              = .error "Cannot do boolean with anything but Part::Feature and its derivatives"
            ↔ allStepsSucceed K op base ts = true)
          ∧ ((execute K ⟨some base, ts.map .partFeature ++ .other :: post, op, true, old⟩).ret
              = .error "Cannot do boolean with anything but Part::Feature and its derivatives"
            → (execute K
                ⟨some base, ts.map .partFeature ++ .other :: post, op, true, old⟩).calls.map
                  KernelCall.index = List.range ts.length)) := by
  refine ⟨by simp [execute], by simp [execute], fun h => by simp [execute, h],
    fun h => by simp [execute, h], by simp [executeStep],
    fun h => by simp [executeStep, h], fun h1 h2 => by simp [executeStep, h1, h2],
    fun h1 h2 => ⟨fun h => by simp [executeStep, h1, h2, h],
      fun h => by simp [executeStep, h1, h2, h], fun h => by simp [executeStep, h1, h2, h],
      fun h => by simp [executeStep, h1, h2, h],
      fun h h3 => by simp [executeStep, h1, h2, h, h3],
      fun h h3 => by simp [executeStep, h1, h2, h, h3]⟩, ?_, ?_⟩
  · intro hbase acc why hpre hstep
    have hfold : foldSteps K op base (pre ++ tool :: post) = .error why := by
      rw [foldSteps_append K op pre (tool :: post) base acc hpre]
      simp only [foldSteps, hstep]
    exact ((execute_of_foldSteps K op base old _ (by simp) hbase).1 why hfold).1
  · intro hbase
    have hne : ts.map DocumentObject.partFeature ++ DocumentObject.other :: post ≠ [] := by
      simp
    have hexec := execute_of_foldSteps K op base old _ hne hbase
    rcases hpre : foldSteps K op base (ts.map DocumentObject.partFeature) with e | acc
    · have hret := (hexec.1 e (foldSteps_append_error K op _ _ e base hpre)).1
      have hnot := foldSteps_partFeature_error K op ts base e hpre
      have hfalse : allStepsSucceed K op base ts ≠ true := by
        intro hall
        have := foldSteps_of_allStepsSucceed K op ts base hall
        rw [hpre] at this
        exact Except.noConfusion this
      rw [hret]
      constructor
      · constructor
        · intro h
          exact absurd (DocumentObjectExecReturn.error.inj h) hnot
        · intro h
          exact absurd h hfalse
      · intro h
        exact absurd (DocumentObjectExecReturn.error.inj h) hnot
    · have hall := allStepsSucceed_of_foldSteps K op ts base acc hpre
      have hfold : foldSteps K op base
          (ts.map DocumentObject.partFeature ++ DocumentObject.other :: post)
          = .error "Cannot do boolean with anything but Part::Feature and its derivatives" := by
        rw [foldSteps_append K op _ _ base acc hpre]
        rfl
      have hret := (hexec.1 _ hfold).1
      refine ⟨⟨fun _ => hall, fun _ => hret⟩, fun _ => ?_⟩
      have hloopfst := executeLoop_fst K op (ts.map DocumentObject.partFeature) 0 base []
      rw [hpre] at hloopfst
      have hidx := executeLoop_ok_indices K op _ 0 base acc [] hloopfst
      have hfail := executeLoop_fail K op (ts.map DocumentObject.partFeature) post .other 0
        base acc []
        "Cannot do boolean with anything but Part::Feature and its derivatives" hpre rfl
      rw [execute_eq_loop K op base old _ hne hbase, hfail]
      simp only [executeStep, List.append_nil]
      rw [hidx]
      simp [List.range_eq_range']

/-- C16, evaluated: a missing base object wins over an empty tool list, the empty tool
list over a null base shape, the null base shape over a missing body and the missing
body over an unsupported tool; a null running result is reported before a null tool
shape; and the unsupported tool at index 2 is reported after the two cuts before it. -/
theorem execute_check_order_witness :
    (execute natKernel ⟨none, [], .Cut, false, 6⟩).ret
        = .error "Cannot do boolean operation with invalid BaseFeature"
      ∧ (execute natKernel ⟨some 0, [], .Cut, false, 6⟩).ret = .StdReturn
      ∧ (execute natKernel ⟨some 0, [.other], .Cut, false, 6⟩).ret
        = .error "Cannot do boolean operation with invalid base shape"
      ∧ (execute natKernel ⟨some 10, [.other], .Cut, false, 6⟩).ret
        = .error "Cannot do boolean on feature which is not in a body"
      ∧ (executeStep natKernel .Cut 0 0 (.partFeature 0)).1 = .error "Base shape is null"
      ∧ (execute natKernel
          ⟨some 10, [2, 4].map .partFeature ++ .other :: [.partFeature 4], .Cut, true, 6⟩).ret
        = .error "Cannot do boolean with anything but Part::Feature and its derivatives"
      ∧ (execute natKernel
          ⟨some 10, [2, 4].map .partFeature ++ .other :: [.partFeature 4], .Cut, true,
            6⟩).calls.map KernelCall.index = List.range [2, 4].length :=
  have h0 := execute_check_order natKernel .Cut 0 6 0 0 [] [] [] [] .other false 0 []
  have h1 := execute_check_order natKernel .Cut 10 6 0 0 [] [] [] [.partFeature 4] .other
    false 0 [2, 4]
  have hret := (h1.2.2.2.2.2.2.2.2.2 rfl).1.mpr rfl
  ⟨h0.1, h0.2.1, h0.2.2.1 rfl, h1.2.2.2.1 rfl, h0.2.2.2.2.2.1 rfl, hret,
    (h1.2.2.2.2.2.2.2.2.2 rfl).2 hret⟩

/-! ## Lemmas on the running result -/

/-- For Fuse and Section a step that succeeds leaves a non-null shape, so a fold seeded
with a non-null shape only ever hands on non-null shapes. -/
theorem foldSteps_nonnull {S : Type} (K : Kernel S) (op : BoolType)
    (hop : op = .Fuse ∨ op = .Section) (pre : List (DocumentObject S)) :
    ∀ (r acc : S), K.IsNull r = false → foldSteps K op r pre = .ok acc →
      K.IsNull acc = false := by
  induction pre with
  | nil =>
    intro r acc hr h
    simp only [foldSteps, Except.ok.injEq] at h
    rw [← h]
    exact hr
  | cons t pre ih =>
    intro r acc hr h
    simp only [foldSteps] at h
    rcases hs : (executeStep K op 0 r t).1 with e | next
    · rw [hs] at h
      simp at h
    · rw [hs] at h
      obtain ⟨shape, _, hok, hnext⟩ := executeStep_ok_cases K op 0 r next t hs
      have hnn : K.IsNull next = false := by
        rcases hop with hop | hop <;> subst hop <;>
          simp [stepSucceeds] at hok <;> simp [hnext, stepShape, hok]
      exact ih next acc hnn h

/-- The loop body returns "Base shape is null" only on a null running result. -/
theorem executeStep_base_null {S : Type} (K : Kernel S) (op : BoolType) (i : Nat) (r : S)
    (tool : DocumentObject S)
    (h : (executeStep K op i r tool).1 = .error "Base shape is null") :
    K.IsNull r = true ∧ ∃ shape, tool = .partFeature shape := by
  rcases executeStep_error_cases K op i r tool _ h with
    ⟨_, hw⟩ | ⟨shape, ht, ⟨hr, _⟩ | ⟨_, _, hw⟩ | ⟨_, _, ⟨_, hw | hw⟩ | ⟨_, hw⟩
      | ⟨_, hw⟩ | ⟨_, hw | hw⟩⟩⟩
  · exact absurd hw (by decide)
  · exact ⟨hr, shape, ht⟩
  all_goals exact absurd hw (by decide)

/-- C17 as stated fails: under Cut with base 10 and tools 10, then an object that is no
`Part::Feature`, the kernel call of step 0 completes with a null output shape and the
loop enters index 1 with a null running result, yet the failure returned is the one of
the type check, not "Base shape is null". -/
theorem execute_null_result_unsupported_tool :
    natKernel.Cut 10 10 = ⟨true, 0⟩ ∧ natKernel.IsNull 0 = true
      ∧ foldSteps natKernel .Cut 10 [.partFeature 10] = .ok 0
      ∧ execute natKernel ⟨some 10, [.partFeature 10, .other], .Cut, true, 6⟩
        = ⟨.error "Cannot do boolean with anything but Part::Feature and its derivatives",
            6, 0, [⟨0, .Cut, 10, 10⟩]⟩
      ∧ (execute natKernel ⟨some 10, [.partFeature 10, .other], .Cut, true, 6⟩).ret
        ≠ .error "Base shape is null" := by
  refine ⟨rfl, rfl, rfl, rfl, ?_⟩
  intro h
  have h2 : "Cannot do boolean with anything but Part::Feature and its derivatives"
      = "Base shape is null" := DocumentObjectExecReturn.error.inj h
  exact absurd h2 (by decide)

/-- C17, amended: for Fuse and Section `execute` never returns "Base shape is null",
and the running result is non-null at the start of every iteration. For every kind
(so for Cut and Common, where a completed kernel call is a succeeding step and its raw
output the next running result) `execute` on a valid base inside a body returns
"Base shape is null" exactly when, after a prefix of succeeding steps, a step succeeds
with a null shape and the tool right after it derives from `Part::Feature`. -/
theorem execute_base_shape_null_iff {S : Type} (K : Kernel S) (self : Boolean S)
    (op : BoolType) (base old : S) (tools : List (DocumentObject S))
    (hbase : K.IsNull base = false) :
    ((self.TypeValue = .Fuse ∨ self.TypeValue = .Section) →
        (execute K self).ret ≠ .error "Base shape is null")
      ∧ ((op = .Fuse ∨ op = .Section) → ∀ pre acc, foldSteps K op base pre = .ok acc →
          K.IsNull acc = false)
      ∧ ((execute K ⟨some base, tools, op, true, old⟩).ret = .error "Base shape is null"
          ↔ ∃ pre t shape post acc, tools = pre ++ .partFeature t :: .partFeature shape :: post
              ∧ foldSteps K op base pre = .ok acc ∧ stepSucceeds K op acc t = true
              ∧ K.IsNull (stepShape K op acc t) = true) := by
  refine ⟨?_, fun hop pre acc h => foldSteps_nonnull K op hop pre base acc hbase h, ?_⟩
  · intro hop h
    obtain ⟨b, g, ty, body, old0⟩ := self
    simp only at hop
    cases b with
    | none => simp [execute] at h
    | some b0 =>
      cases g with
      | nil => simp [execute] at h
      | cons t ts =>
        by_cases hb : K.IsNull b0 = true
        · simp [execute, hb] at h
        · have hbf : K.IsNull b0 = false := by simpa using hb
          cases body with
          | false => simp [execute, hbf] at h
          | true =>
            obtain ⟨pre, t2, post, acc, _, hpre, hstep⟩ :=
              execute_error_in_fold K ty b0 old0 (t :: ts) _ (by simp) hbf h
            have hnull := (executeStep_base_null K ty 0 acc t2 hstep).1
            have hnn := foldSteps_nonnull K ty hop pre b0 acc hbf hpre
            rw [hnull] at hnn
            exact Bool.noConfusion hnn
  · constructor
    · intro h
      have hne : tools ≠ [] := by
        intro hnil
        subst hnil
        simp [execute] at h
      obtain ⟨pre, t2, post, acc, hsplit, hpre, hstep⟩ :=
        execute_error_in_fold K op base old tools _ hne hbase h
      obtain ⟨hnull, shape, ht2⟩ := executeStep_base_null K op 0 acc t2 hstep
      rcases foldSteps_ok_last K op pre base acc hpre with
        ⟨_, hacc⟩ | ⟨pre2, t, acc2, hpre2, hfold2, hlast⟩
      · rw [hacc, hbase] at hnull
        exact Bool.noConfusion hnull
      · obtain ⟨sh, hsh, hok, hnext⟩ := executeStep_ok_cases K op 0 acc2 acc t hlast
        refine ⟨pre2, sh, shape, post, acc2, ?_, hfold2, hok, ?_⟩
        · rw [hsplit, hpre2, ht2, hsh]
          simp
        · rw [← hnext]
          exact hnull
    · rintro ⟨pre, t, shape, post, acc, hsplit, hpre, hok, hnull⟩
      have hfold : foldSteps K op base tools = .error "Base shape is null" := by
        rw [hsplit, foldSteps_append K op pre _ base acc hpre]
        simp only [foldSteps, executeStep_of_stepSucceeds K op 0 acc t hok]
        simp [executeStep, hnull]
      have hne : tools ≠ [] := by
        rw [hsplit]
        simp
      exact ((execute_of_foldSteps K op base old tools hne hbase).1 _ hfold).1

/-- C17 amended, evaluated: under Cut with base 10 and tools 10, 2 the first cut
completes with a null shape and the second iteration returns "Base shape is null";
under Fuse with the same tools the running result after the first step is non-null. -/
theorem execute_base_shape_null_iff_witness :
    (execute natKernel ⟨some 10, [.partFeature 10, .partFeature 2], .Cut, true, 6⟩).ret
        = .error "Base shape is null"
      ∧ (execute natKernel ⟨some 10, [.partFeature 10, .partFeature 2], .Fuse, true, 6⟩).ret
        ≠ .error "Base shape is null"
      ∧ natKernel.IsNull 20 = false :=
  ⟨(execute_base_shape_null_iff natKernel
      ⟨some 10, [.partFeature 10, .partFeature 2], .Cut, true, 6⟩ .Cut 10 6
      [.partFeature 10, .partFeature 2] rfl).2.2.mpr ⟨[], 10, 2, [], 10, rfl, rfl, rfl, rfl⟩,
    (execute_base_shape_null_iff natKernel
      ⟨some 10, [.partFeature 10, .partFeature 2], .Fuse, true, 6⟩ .Fuse 10 6
      [.partFeature 10, .partFeature 2] rfl).1 (Or.inl rfl),
    (execute_base_shape_null_iff natKernel
      ⟨some 10, [.partFeature 10, .partFeature 2], .Fuse, true, 6⟩ .Fuse 10 6
      [.partFeature 10, .partFeature 2] rfl).2.1 (Or.inl rfl) [.partFeature 10] 20 rfl⟩

/-- C18: the final `getSolid` is not null-checked. Whenever all steps succeed on a
valid base inside a body, `execute` returns `StdReturn` and stores `getSolid(result)`
in one write, whatever that value is; so for Cut and for Common with a single
non-null tool a completed kernel call always gives `StdReturn`, storing `getSolid` of
the raw output. -/
theorem execute_final_getSolid_unchecked {S : Type} (K : Kernel S) (op : BoolType)
    (base old result shape : S) (tools : List (DocumentObject S))
    (hbase : K.IsNull base = false) :
    (tools ≠ [] → foldSteps K op base tools = .ok result →
        (execute K ⟨some base, tools, op, true, old⟩).ret = .StdReturn
          ∧ (execute K ⟨some base, tools, op, true, old⟩).Shape = K.getSolid result
          ∧ (execute K ⟨some base, tools, op, true, old⟩).writes = 1)
      ∧ (K.IsNull shape = false → (K.Cut base shape).IsDone = true →
        execute K ⟨some base, [.partFeature shape], .Cut, true, old⟩
          = ⟨.StdReturn, K.getSolid (K.Cut base shape).Shape, 1, [⟨0, .Cut, base, shape⟩]⟩)
      ∧ (K.IsNull shape = false → (K.Common base shape).IsDone = true →
        execute K ⟨some base, [.partFeature shape], .Common, true, old⟩
          = ⟨.StdReturn, K.getSolid (K.Common base shape).Shape, 1,
              [⟨0, .Common, base, shape⟩]⟩) := by
  refine ⟨fun hne hfold => (execute_of_foldSteps K op base old tools hne hbase).2 result hfold,
    ?_, ?_⟩
  · intro hs hd
    simp [execute, executeLoop, executeStep, hbase, hs, hd]
  · intro hs hd
    simp [execute, executeLoop, executeStep, hbase, hs, hd]

/-- C18, evaluated: cutting 10 from 10 completes with the null shape, and the common
part of 10 and 3 holds no solid; both runs return `StdReturn` and store the null
shape `getSolid` gives. -/
theorem execute_final_getSolid_unchecked_witness :
    ((execute natKernel ⟨some 10, [.partFeature 10], .Cut, true, 6⟩).ret = .StdReturn
        ∧ (execute natKernel ⟨some 10, [.partFeature 10], .Cut, true, 6⟩).Shape
          = natKernel.getSolid 0
        ∧ (execute natKernel ⟨some 10, [.partFeature 10], .Cut, true, 6⟩).writes = 1)
      ∧ natKernel.IsNull (natKernel.getSolid 0) = true
      ∧ execute natKernel ⟨some 10, [.partFeature 3], .Common, true, 6⟩
        = ⟨.StdReturn, natKernel.getSolid (natKernel.Common 10 3).Shape, 1,
            [⟨0, .Common, 10, 3⟩]⟩
      ∧ natKernel.IsNull (natKernel.getSolid (natKernel.Common 10 3).Shape) = true :=
  ⟨(execute_final_getSolid_unchecked natKernel .Cut 10 6 0 10 [.partFeature 10] rfl).1
      (by simp) rfl, rfl,
    (execute_final_getSolid_unchecked natKernel .Common 10 6 0 3 [] rfl).2.2 rfl rfl, rfl⟩

end PartDesign
